import Mathlib

/-!
Shallow embedding of the core decision pipeline of the lc-agentic-processor
repository, together with theorems settling the frozen claims about it.

Conventions:
* Python strings that are inspected character by character (OCR text) are
  modelled as `List Char` (`PyStr`); strings that are only constructed
  (paths, page ranges, error messages) use Lean `String`.
* JSON values produced by `json.loads` are modelled by the inductive `JVal`
  (Python `None`/`bool`/`int`/`float`/`str`/`list`/`dict`).
* Python floats that appear in the code are modelled as rationals; every
  comparison in the embedded code is exact at the sizes the program handles
  (`* 0.5` and `* 2` are exact in binary floating point).
* Fallible Python code is modelled with `Except PyErr`; the external
  language-model oracle is an explicit argument (a value of type
  `Except PyErr JVal`, or a function returning such a value), so theorems
  quantify over every oracle outcome including failure.
-/

namespace LCProc

/-- Python string, viewed as its character sequence. -/
abbrev PyStr := List Char

/-- `str.strip()`: drop leading and trailing whitespace. -/
def pyStrip (s : PyStr) : PyStr :=
  ((s.dropWhile Char.isWhitespace).reverse.dropWhile Char.isWhitespace).reverse

/-- Exception outcomes of Python code (timeouts and everything else). -/
inductive PyErr where
  | timeout (msg : String)
  | exc (msg : String)
  deriving Repr, DecidableEq

/-- JSON values as returned by `json.loads`: Python `None`, `bool`, `int`,
`float`, `str`, `list`, `dict` (insertion-ordered association list). -/
inductive JVal where
  | null
  | bool (b : Bool)
  | int (n : Int)
  | float (q : ℚ)
  | str (s : String)
  | arr (xs : List JVal)
  | obj (kvs : List (String × JVal))

/-- `d[k]` / `d.get(k)` on a Python dict (keys are unique in a real dict;
first binding wins). -/
def lookupJ : List (String × JVal) → String → Option JVal
  | [], _ => none
  | (k, v) :: rest, key => if k = key then some v else lookupJ rest key

/-- Python truthiness of a JSON value. -/
def truthy : JVal → Bool
  | .null => false
  | .bool b => b
  | .int n => n != 0
  | .float q => q != 0
  | .str s => s != ""
  | .arr xs => !xs.isEmpty
  | .obj kvs => !kvs.isEmpty

/-- `int(x)` on a Python float: truncation toward zero. -/
def pyIntOfRat (q : ℚ) : Int :=
  if 0 ≤ q then ⌊q⌋ else -⌊-q⌋

/-! ## Page Segmentation Engine (`src/agents/splitter_agent.py`) -/

/-- The per-page record built by `SplitterAgent._extract_all_page_texts`. -/
structure PageText where
  page_number : Nat
  text_length : Nat
  has_content : Bool
  first_200 : PyStr
  last_200 : PyStr
  full_text_sample : PyStr

/-- `_extract_all_page_texts`, given the OCR text of each page:
`has_content = len(text.strip()) > 50`, plus the excerpt fields. -/
def extractAllPageTexts (ocrTexts : List PyStr) : List PageText :=
  (ocrTexts.enum).map fun (i, t) =>
    let clean := pyStrip t
    { page_number := i
      text_length := clean.length
      has_content := 50 < clean.length
      first_200 := clean.take 200
      last_200 := if 200 < clean.length then clean.drop (clean.length - 200) else []
      full_text_sample := clean.take 800 }

/-- One element of the raw `boundaries` list after the per-element
conversion in `_analyze_document_structure`:
`int(b) if isinstance(b, int) and b == 0 else int(b) - 1` applied to the
elements satisfying `isinstance(b, (int, float))` (Python `bool` is a
subtype of `int`: `True ↦ 0`, `False ↦ 0`). -/
def convertBoundary : JVal → Option Int
  | .int n => some (if n = 0 then 0 else n - 1)
  | .bool b => some (if b then (1 : Int) - 1 else 0)
  | .float q => some (pyIntOfRat q - 1)
  | _ => none

/-- `sorted(list(set(xs)))` for a list of page indices. -/
def sortedDedup (xs : List ℕ) : List ℕ :=
  List.insertionSort (· ≤ ·) xs.dedup

/-- Boundary sanitization of `_analyze_document_structure` (lines 248-265):
given the raw value of the `boundaries` key (default `[0]`), convert and
range-filter elements, force index 0, deduplicate and sort.  Indices are
returned as `ℕ` (the code keeps Python `int`s; after the `0 <= b < n`
filter the two are in value-preserving bijection). -/
def sanitizeBoundaries (n : Nat) (raw : JVal) : List ℕ :=
  let bs : List ℕ :=
    match raw with
    | .arr xs =>
        ((xs.filterMap convertBoundary).filter
          (fun b => 0 ≤ b && b < (n : Int))).map Int.toNat
    | _ => [0]
  let bs' := if 0 ∈ bs then bs else 0 :: bs
  sortedDedup bs'

/-- Result record of `_analyze_document_structure`. -/
structure SplitAnalysis where
  is_single_document : Bool
  document_type : JVal
  num_documents : Nat
  boundaries : List ℕ
  reasoning : JVal
  confidence : JVal

/-- `_analyze_document_structure` on the oracle outcome of
`generate_json` (the prompt building is pure string assembly and does not
affect the result).  `result.get` on a non-dict raises `AttributeError`,
which the surrounding `try` turns into the conservative fallback. -/
def analyzeDocumentStructure (n : Nat) (oracle : Except PyErr JVal) :
    SplitAnalysis :=
  match oracle with
  | .error e =>
      { is_single_document := true
        document_type := .str "unknown"
        num_documents := 1
        boundaries := [0]
        reasoning := .str ("LLM failed, conservative fallback: " ++ reprStr e)
        confidence := .float (1/2) }
  | .ok r =>
      match r with
      | .obj kvs =>
          let isSingleRaw := (lookupJ kvs "is_single_document").getD (.bool true)
          let rawBounds := (lookupJ kvs "boundaries").getD (.arr [.int 0])
          let boundaries := sanitizeBoundaries n rawBounds
          let isSingle := if boundaries.length = 1 then true else truthy isSingleRaw
          { is_single_document := isSingle
            document_type := (lookupJ kvs "document_type").getD (.str "unknown")
            num_documents := boundaries.length
            boundaries := boundaries
            reasoning := (lookupJ kvs "reasoning").getD (.str "LLM analysis completed")
            confidence := (lookupJ kvs "confidence").getD (.float (4/5)) }
      | _ =>
          -- `result.get` raised AttributeError; caught by the same `except`.
          { is_single_document := true
            document_type := .str "unknown"
            num_documents := 1
            boundaries := [0]
            reasoning := .str "LLM failed, conservative fallback: AttributeError"
            confidence := .float (1/2) }

/-- A logical document as produced by the splitter (the `images` list is
the sublist of input pages selected by `pages` and is omitted). -/
structure LogicalDoc where
  source : String
  pages : List ℕ
  page_range : String
  document_id : String
  split_method : String
  num_pages : Nat

/-- `f"{k:03d}"`. -/
def pad3 (k : Nat) : String :=
  (if k < 10 then "00" else if k < 100 then "0" else "") ++ toString k

/-- `_create_single_document`. -/
def createSingleDocument (numPages : Nat) (source : String) : List LogicalDoc :=
  [{ source := source
     pages := List.range numPages
     page_range := if numPages = 1 then "1" else "1-" ++ toString numPages
     document_id := source ++ "_doc_001"
     split_method := "no_split"
     num_pages := numPages }]

/-- The `(start, end)` half-open spans computed by the loop of
`_group_pages_into_documents`: each boundary paired with the next boundary,
the last with `len(pages)`. -/
def docSpans (n : Nat) : List ℕ → List (ℕ × ℕ)
  | [] => []
  | [b] => [(b, n)]
  | b :: c :: rest => (b, c) :: docSpans n (c :: rest)

/-- Page-range string of `_group_pages_into_documents` for the span
`[s, e)`: 1-indexed inclusive.  (For the sanitized boundary lists that
reach this code the span is never empty.) -/
def pageRangeStr (s e : Nat) : String :=
  if e - s = 1 then toString (s + 1) else toString (s + 1) ++ "-" ++ toString e

/-- `_group_pages_into_documents`. -/
def groupPagesIntoDocuments (n : Nat) (boundaries : List ℕ) (source : String) :
    List LogicalDoc :=
  (docSpans n boundaries).enum.map fun (i, se) =>
    { source := source
      pages := List.range' se.1 (se.2 - se.1)
      page_range := pageRangeStr se.1 se.2
      document_id := source ++ "_doc_" ++ pad3 (i + 1)
      split_method := "llm_intelligent"
      num_pages := se.2 - se.1 }

/-- `SplitterAgent.split_pdf_pages`, with the OCR collaborator's page texts
and the structure-analysis oracle outcome as explicit inputs. -/
def splitPdfPages (ocrTexts : List PyStr) (oracle : Except PyErr JVal)
    (source : String) : List LogicalDoc :=
  let n := ocrTexts.length
  if n = 1 then createSingleDocument n source
  else
    let pageTexts := extractAllPageTexts ocrTexts
    let pagesWithContent := (pageTexts.filter (·.has_content)).length
    if pagesWithContent = 0 then createSingleDocument n source
    else if pagesWithContent = 1 then createSingleDocument n source
    else
      let analysis := analyzeDocumentStructure n oracle
      if analysis.is_single_document then createSingleDocument n source
      else groupPagesIntoDocuments n analysis.boundaries source

/-! ## OCR agent (`src/agents/ocr_agent.py`) -/

/-- `OCRAgent.min_text_length`. -/
def minTextLength : Nat := 100

/-- `OCRAgent.confidence_threshold` (0.85). -/
def confidenceThreshold : ℚ := 85/100

/-- `OCRAgent.enable_llm_validation`. -/
def enableLLMValidation : Bool := true

/-- `c.isalnum() or c.isspace()`. -/
def isReadableChar (c : Char) : Bool := c.isAlphanum || c.isWhitespace

/-- `OCRAgent._should_validate_with_llm`.  The Python ratio test
`alphanumeric / len(text) < 0.5` is written in the exact integer form
`2 * alphanumeric < len(text)` (multiplication by 0.5 is exact in binary
floating point, so the two are equivalent). -/
def shouldValidateWithLLM (text : PyStr) (confidence : ℚ) : Bool :=
  if text.length < minTextLength then false
  else if confidenceThreshold ≤ confidence then false
  else if 2 * (text.countP isReadableChar) < text.length then false
  else true

/-- The bounded sample sent to the LLM by `validate_with_llm`:
`raw_text[:2000] if len(raw_text) > 2000 else raw_text`. -/
def textSample (raw_text : PyStr) : PyStr :=
  if 2000 < raw_text.length then raw_text.take 2000 else raw_text

/-- The user prompt built by `validate_with_llm` (the textual rendering of
the confidence percentage is abbreviated; only the prompt's dependence on
`confidence` and the bounded `sample` matters for the claims). -/
def correctionPrompt (confidence : ℚ) (sample : PyStr) : PyStr :=
  ("Review this OCR output and fix obvious errors:\n\nOCR CONFIDENCE: "
      ++ toString (confidence * 100) ++ "%\n\nTEXT:\n").data
    ++ sample
    ++ "\n\nReturn the corrected text (or same text if no obvious errors).".data

/-- `OCRAgent.validate_with_llm`, with the `llm.generate` call modelled as
a function from the user prompt to an outcome (the system prompt is a
constant).  Its internal `try` absorbs every oracle error. -/
def validateWithLLM (oracle : PyStr → Except PyErr PyStr) (raw_text : PyStr)
    (confidence : ℚ) : PyStr :=
  let sample := textSample raw_text
  match oracle (correctionPrompt confidence sample) with
  | .error _ => raw_text
  | .ok corrected =>
      -- `len(corrected) < len(text_sample) * 0.5` (exact form)
      if 2 * corrected.length < sample.length then raw_text
      -- `len(corrected) > len(text_sample) * 2`
      else if 2 * sample.length < corrected.length then raw_text
      else pyStrip corrected

/-- Status tag of `extract_and_validate` (string renderings abbreviated). -/
inductive ValidationStatus where
  | skippedInsufficientText
  | completed
  | skippedHighConfidence
  | skippedDisabled
  deriving Repr, DecidableEq

/-- Result record of `extract_and_validate` (the `ocr_details` passthrough
is omitted). -/
structure OCRRecord where
  raw_text : PyStr
  validated_text : PyStr
  confidence : ℚ
  text_length : Nat
  llm_validation : ValidationStatus

/-- `OCRAgent.extract_and_validate`, with the OCR engine's output
(`full_text`, `average_confidence`) as explicit inputs.  The `failed_*`
status of the Python `except` around `validate_with_llm` is unreachable
here because `validateWithLLM` already absorbs every oracle error. -/
def extractAndValidate (raw_text : PyStr) (confidence : ℚ)
    (oracle : PyStr → Except PyErr PyStr) : OCRRecord :=
  if raw_text.isEmpty || (pyStrip raw_text).length < 10 then
    { raw_text := raw_text, validated_text := raw_text, confidence := confidence,
      text_length := raw_text.length, llm_validation := .skippedInsufficientText }
  else if shouldValidateWithLLM raw_text confidence && enableLLMValidation then
    let validated := validateWithLLM oracle raw_text confidence
    { raw_text := raw_text, validated_text := validated, confidence := confidence,
      text_length := validated.length, llm_validation := .completed }
  else
    { raw_text := raw_text, validated_text := raw_text, confidence := confidence,
      text_length := raw_text.length,
      llm_validation := if enableLLMValidation then .skippedHighConfidence
                        else .skippedDisabled }

/-! ## LLM client (`src/llm/llama_client.py`) -/

/-- Constructor state of `LlamaClient`. -/
structure LlamaClient where
  api_url : String
  model : String
  temperature : ℚ
  default_timeout : Nat

/-- The HTTP request handed to `requests.post` by `LlamaClient.generate`. -/
structure OllamaRequest where
  url : String
  model : String
  prompt : String
  system : Option String
  stream : Bool
  temperature : ℚ
  timeout : Nat

/-- The request built by `LlamaClient.generate` (lines 50-74).  Line 50
comments out `timeout = timeout or self.default_timeout`; line 51 assigns
`timeout = 300`, so the caller's argument and the client default are both
ignored. -/
def LlamaClient.buildRequest (c : LlamaClient) (prompt : String)
    (system_prompt : Option String) (_timeoutArg : Option Nat) : OllamaRequest :=
  { url := c.api_url, model := c.model, prompt := prompt,
    system := system_prompt, stream := false, temperature := c.temperature,
    timeout := 300 }

/-- Outcome of the `requests.post` call (the `response.json()['response']`
extraction is folded into the `ok` payload). -/
inductive NetOutcome where
  | ok (status : Nat) (response : String)
  | timedOut
  | connError (msg : String)

/-- `LlamaClient.generate`: issue the request, map `requests` exceptions to
Python exceptions (`requests.exceptions.Timeout` → `TimeoutError`),
`raise_for_status` on 4xx/5xx. -/
def LlamaClient.generate (c : LlamaClient) (prompt : String)
    (system_prompt : Option String) (timeoutArg : Option Nat)
    (net : OllamaRequest → NetOutcome) : Except PyErr String :=
  let req := c.buildRequest prompt system_prompt timeoutArg
  match net req with
  | .timedOut =>
      .error (.timeout ("LLM request timed out after " ++ toString req.timeout
        ++ " seconds"))
  | .connError m => .error (.exc m)
  | .ok status response =>
      if 400 ≤ status then .error (.exc "HTTPError") else .ok response

/-! ## Dynamic field extractor (`src/agents/extractors/dynamic_extractor.py`) -/

/-- A field entry of the document registry:
`{name, type (default "string"), required}`. -/
structure FieldSpec where
  name : String
  ftype : String
  required : Bool

/-- `digits → value` for a run of decimal digits. -/
def digitsToNat (ds : List Char) : ℕ :=
  ds.foldl (fun a c => 10 * a + (c.toNat - '0'.toNat)) 0

/-- Unsigned decimal literal accepted by Python `float()`:
`digits`, `digits.digits`, `digits.` or `.digits` (at least one digit).
The exponent / `inf` / `nan` forms are not exercised by any claim and are
omitted. -/
def parseUnsignedDecimal (s : PyStr) : Option ℚ :=
  let intPart := s.takeWhile Char.isDigit
  let rest := s.dropWhile Char.isDigit
  match rest with
  | [] => if intPart.isEmpty then none else some (digitsToNat intPart : ℚ)
  | '.' :: frac =>
      if frac.all Char.isDigit && !(intPart.isEmpty && frac.isEmpty) then
        some ((digitsToNat intPart : ℚ)
          + (digitsToNat frac : ℚ) / ((10 : ℚ) ^ frac.length))
      else none
  | _ => none

/-- Python `float(s)` on a string: strip whitespace, optional sign, decimal
literal; `none` models `ValueError`. -/
def pyFloatOfStr (s : PyStr) : Option ℚ :=
  match pyStrip s with
  | '+' :: rest => parseUnsignedDecimal rest
  | '-' :: rest => (parseUnsignedDecimal rest).map Neg.neg
  | t => parseUnsignedDecimal t

/-- Python `float(value)` on an arbitrary JSON value; `none` models
`ValueError`/`TypeError`. -/
def pyFloatOfJVal : JVal → Option ℚ
  | .int n => some (n : ℚ)
  | .float q => some q
  | .bool b => some (if b then 1 else 0)
  | .str s => pyFloatOfStr s.data
  | _ => none

/-- `value.replace(',', '').replace('$', '').replace('€', '').replace('₹', '').strip()`. -/
def cleanCurrency (s : String) : PyStr :=
  pyStrip (s.data.filter (fun c => !(c = ',' || c = '$' || c = '€' || c = '₹')))

/-- The per-field body of `DynamicExtractor._validate_extraction`. -/
def validateField (field : FieldSpec) (result : List (String × JVal)) : JVal :=
  -- `value = result.get(field_name)` (JSON null and a missing key are both
  -- Python `None`)
  let value0 : JVal := (lookupJ result field.name).getD .null
  -- `if value == "null" or value == "None": value = None`
  let value1 : JVal :=
    match value0 with
    | .str s => if s = "null" || s = "None" then .null else .str s
    | v => v
  -- `if isinstance(value, str) and value.strip() == "": value = None`
  let value2 : JVal :=
    match value1 with
    | .str s => if (pyStrip s.data).isEmpty then .null else .str s
    | v => v
  match value2 with
  | .null => .null
  | v =>
      if field.ftype = "currency" || field.ftype = "number" then
        match v with
        | .str s =>
            match pyFloatOfStr (cleanCurrency s) with
            | some q => .float q
            | none => .null
        | _ =>
            match pyFloatOfJVal v with
            | some q => .float q
            | none => .null
      else if field.ftype = "date" then
        match v with
        | .str s => if s.length < 8 then .null else .str s
        | _ => v
      else v

/-- `d[k] = v` on a Python dict: update in place, else append. -/
def dictInsert (d : List (String × JVal)) (k : String) (v : JVal) :
    List (String × JVal) :=
  match d with
  | [] => [(k, v)]
  | (k', v') :: rest =>
      if k' = k then (k', v) :: rest else (k', v') :: dictInsert rest k v

/-- `DynamicExtractor._validate_extraction`: one dict entry per declared
field, in declaration order. -/
def validateExtraction (fields : List FieldSpec) (result : List (String × JVal)) :
    List (String × JVal) :=
  fields.foldl (fun acc f => dictInsert acc f.name (validateField f result)) []

/-- `DynamicExtractor._get_empty_result`. -/
def getEmptyResult (fields : List FieldSpec) : List (String × JVal) :=
  fields.foldl (fun acc f => dictInsert acc f.name .null) []

/-- `DynamicExtractor.extract`, with the prompt building and the
`generate_json` call folded into the oracle outcome argument (a prompt
formatting error behaves like an oracle error: both land in the `except`).
A non-dict oracle value makes the first `result.get` raise
`AttributeError`, which the same `except` turns into the empty result. -/
def DynamicExtractor.extract (fields : List FieldSpec)
    (oracle : Except PyErr JVal) : List (String × JVal) :=
  match oracle with
  | .error _ => getEmptyResult fields
  | .ok (.obj kvs) => validateExtraction fields kvs
  | .ok _ => getEmptyResult fields

/-! ## Schema resolver (`src/payload/schema_resolver.py`)

The `fuel` argument of the recursive functions below models Python's
bounded call stack: each recursive call consumes one unit, and running out
corresponds to `RecursionError` (reachable in the source only through
cyclic definition tables, which the repository acknowledges as unhandled).
Theorems quantify over every sufficient fuel. -/

/-- `ref_path.split('/')[-1]`. -/
def refDefName (p : String) : String := ((p.splitOn "/").getLast?).getD ""

/-- `schema.get('type')` when it is a string (the only case the comparisons
`== 'object'` / `== 'array'` can match). -/
def jdictType (kvs : List (String × JVal)) : Option String :=
  match lookupJ kvs "type" with
  | some (.str t) => some t
  | _ => none

/-- `SchemaResolver._resolve_refs`.  A usable `$ref` is replaced by its
definition and resolved again; a `$ref` whose path has no `#/$defs/` prefix
falls through to the structural walk; a non-string `$ref` raises
(`.startswith` on a non-string).  The two structural rewrites (`properties`
for type `object`, `items` for type `array`) are written as exclusive
branches: the source applies them as consecutive `if`s, but at most one can
fire since a node has a single `type` value. -/
def resolveRefs : Nat → JVal → List (String × JVal) → Except PyErr JVal
  | 0, _, _ => .error (.exc "RecursionError")
  | fuel + 1, .obj kvs, defs =>
      match lookupJ kvs "$ref" with
      | some (.str p) =>
          if p.startsWith "#/$defs/" then
            match lookupJ defs (refDefName p) with
            | some target => resolveRefs fuel target defs
            | none => .ok (.obj kvs)
          else
            if jdictType kvs = some "object" then
              match lookupJ kvs "properties" with
              | some (.obj props) =>
                  match props.mapM (fun kv =>
                      (resolveRefs fuel kv.2 defs).map (fun r => (kv.1, r))) with
                  | .error e => .error e
                  | .ok rp => .ok (.obj (dictInsert kvs "properties" (.obj rp)))
              | some _ => .error (.exc "AttributeError")
              | none => .ok (.obj kvs)
            else if jdictType kvs = some "array" then
              match lookupJ kvs "items" with
              | some it =>
                  match resolveRefs fuel it defs with
                  | .error e => .error e
                  | .ok r => .ok (.obj (dictInsert kvs "items" r))
              | none => .ok (.obj kvs)
            else .ok (.obj kvs)
      | some _ => .error (.exc "AttributeError")
      | none =>
          if jdictType kvs = some "object" then
            match lookupJ kvs "properties" with
            | some (.obj props) =>
                match props.mapM (fun kv =>
                    (resolveRefs fuel kv.2 defs).map (fun r => (kv.1, r))) with
                | .error e => .error e
                | .ok rp => .ok (.obj (dictInsert kvs "properties" (.obj rp)))
            | some _ => .error (.exc "AttributeError")
            | none => .ok (.obj kvs)
          else if jdictType kvs = some "array" then
            match lookupJ kvs "items" with
            | some it =>
                match resolveRefs fuel it defs with
                | .error e => .error e
                | .ok r => .ok (.obj (dictInsert kvs "items" r))
            | none => .ok (.obj kvs)
          else .ok (.obj kvs)
  | _ + 1, v, _ => .ok v

/-- "The schema tree contains no reference node" (the hypothesis of C9),
mirroring exactly the nodes `_resolve_refs` visits: no `$ref` key at any
visited dict, and a visited `properties` value is itself a dict (a
non-dict one would make the source crash on `.items()`).  `fuel` bounds
the walked depth like in `resolveRefs`; `unreffed fuel s = true` says the
tree is reference-free and shallower than `fuel`. -/
def unreffed : Nat → JVal → Bool
  | 0, _ => false
  | fuel + 1, .obj kvs =>
      (lookupJ kvs "$ref").isNone &&
      (if jdictType kvs = some "object" then
        match lookupJ kvs "properties" with
        | some (.obj props) => props.all (fun kv => unreffed fuel kv.2)
        | some _ => false
        | none => true
      else if jdictType kvs = some "array" then
        match lookupJ kvs "items" with
        | some it => unreffed fuel it
        | none => true
      else true)
  | _ + 1, _ => true

/-- `SchemaResolver.resolve`: extract the `$defs` table and resolve (the
table's only other use in the source is a log line). -/
def SchemaResolver.resolve (fuel : Nat) (schema : JVal) : Except PyErr JVal :=
  let defs : List (String × JVal) :=
    match schema with
    | .obj kvs =>
        match lookupJ kvs "$defs" with
        | some (.obj d) => d
        | _ => []
    | _ => []
  resolveRefs fuel schema defs

/-! ## Payload validator (`src/payload/payload_validator.py`) -/

/-- `type(x).__name__` for the error messages. -/
def pyTypeName : JVal → String
  | .null => "NoneType"
  | .bool _ => "bool"
  | .int _ => "int"
  | .float _ => "float"
  | .str _ => "str"
  | .arr _ => "list"
  | .obj _ => "dict"

/-- Gregorian month lengths, as `datetime` uses them. -/
def daysInMonth (y m : ℕ) : ℕ :=
  if m = 2 then (if (y % 4 = 0 ∧ y % 100 ≠ 0) ∨ y % 400 = 0 then 29 else 28)
  else if m = 4 ∨ m = 6 ∨ m = 9 ∨ m = 11 then 30
  else 31

/-- `datetime.strptime(s, '%Y-%m-%d')`: three dash-separated digit groups
(year 1-4 digits, month/day 1-2 digits), denoting a real calendar date
with year ≥ 1. -/
def parseDate (s : String) : Option (ℕ × ℕ × ℕ) :=
  match s.splitOn "-" with
  | [ys, ms, ds] =>
      if (!ys.isEmpty && ys.length ≤ 4 && ys.data.all Char.isDigit) &&
         (!ms.isEmpty && ms.length ≤ 2 && ms.data.all Char.isDigit) &&
         (!ds.isEmpty && ds.length ≤ 2 && ds.data.all Char.isDigit) then
        let y := digitsToNat ys.data
        let m := digitsToNat ms.data
        let d := digitsToNat ds.data
        if 1 ≤ y && 1 ≤ m && m ≤ 12 && 1 ≤ d && d ≤ daysInMonth y m then
          some (y, m, d)
        else none
      else none
  | _ => false |> fun _ => none

/-- `PayloadValidator._validate_date_format`. -/
def validDateFormat (s : String) : Bool := (parseDate s).isSome

/-- `PayloadValidator._validate_simple_type`.  Note that Python `bool` is a
subtype of `int`, so booleans pass the `number`/`integer` check. -/
def validateSimpleType (value : JVal) (skvs : List (String × JVal)) : Bool :=
  match jdictType skvs with
  | some "string" =>
      match value with
      | .str s =>
          (match lookupJ skvs "format" with
           | some (.str "date") => validDateFormat s
           | _ => true)
      | _ => false
  | some "number" | some "integer" =>
      match value with
      | .int _ | .float _ | .bool _ => true
      | _ => false
  | some "boolean" =>
      match value with
      | .bool _ => true
      | _ => false
  | _ => true

/-- `PayloadValidator._validate_structure`.  Exceptions (a non-dict
`properties` value, fuel exhaustion) propagate: the source has no `try`
around the recursion. -/
def validateStructure : Nat → JVal → JVal → String → Except PyErr (List String)
  | 0, _, _, _ => .error (.exc "RecursionError")
  | fuel + 1, data, schema, path =>
      match schema with
      | .obj skvs =>
          match jdictType skvs with
          | some "object" =>
              match data with
              | .obj dkvs =>
                  (match lookupJ skvs "properties" with
                   | some (.obj props) =>
                       (props.mapM (fun (pkv : String × JVal) =>
                           let cur := if path = "" then pkv.1 else path ++ "." ++ pkv.1
                           (match lookupJ dkvs pkv.1 with
                            | none => .ok ["Missing field: " ++ cur]
                            | some .null => .ok ["Empty field: " ++ cur]
                            | some (.str "") => .ok ["Empty field: " ++ cur]
                            | some v => validateStructure fuel v pkv.2 cur :
                            Except PyErr (List String)))).map
                         List.flatten
                   | some _ => .error (.exc "AttributeError")
                   | none => .ok [])
              | _ =>
                  .ok [(if path = "" then "root" else path) ++ " should be object, got "
                        ++ pyTypeName data]
          | some "array" =>
              match data with
              | .arr items =>
                  if items.isEmpty then .ok [path ++ " array is empty"]
                  else
                    let ischema := (lookupJ skvs "items").getD (.obj [])
                    (items.enum.mapM (fun ji =>
                        validateStructure fuel ji.2 ischema
                          (path ++ "[" ++ toString ji.1 ++ "]"))).map List.flatten
              | _ => .ok [path ++ " should be array, got " ++ pyTypeName data]
          | some "string" | some "number" | some "integer" | some "boolean" =>
              if validateSimpleType data skvs then .ok []
              else .ok [path ++ ": expected " ++ ((jdictType skvs).getD "") ++ ", got "
                    ++ pyTypeName data]
          | _ => .ok []
      | _ => .ok []

/-- `PayloadValidator._track_field_sources`, returning the
`(fields_from_doc, fields_from_sample)` accumulator lists. -/
def trackFieldSources : Nat → JVal → JVal → JVal → String → List String × List String
  | 0, _, _, _, _ => ([], [])
  | fuel + 1, payload, extracted, sample, path =>
      match payload, extracted, sample with
      | .obj pkvs, .obj ekvs, .obj skvs =>
          pkvs.foldl (fun acc kv =>
            let cur := if path = "" then kv.1 else path ++ "." ++ kv.1
            match lookupJ ekvs kv.1 with
            | some ev =>
                if truthy ev then
                  match kv.2 with
                  | .obj _ | .arr _ =>
                      let nested := trackFieldSources fuel kv.2 ev
                        ((lookupJ skvs kv.1).getD (.obj [])) cur
                      (acc.1 ++ nested.1, acc.2 ++ nested.2)
                  | _ => (acc.1 ++ [cur], acc.2)
                else (acc.1, acc.2 ++ [cur])
            | none => (acc.1, acc.2 ++ [cur])) ([], [])
      | _, _, _ => ([], [])

/-- Scalar (non-dict, non-list) payload values: the ones the provenance
walk attributes directly instead of recursing into. -/
def isScalarJ : JVal → Bool
  | .obj _ => false
  | .arr _ => false
  | _ => true

/-- The loop body of `_track_field_sources`, named for the proofs;
`trackFieldSources (fuel+1)` on three dicts is definitionally the fold of
this step function (see `trackFieldSources_succ`). -/
def trackStep (fuel : Nat) (ekvs skvs : List (String × JVal)) (path : String)
    (acc : List String × List String) (kv : String × JVal) :
    List String × List String :=
  let cur := if path = "" then kv.1 else path ++ "." ++ kv.1
  match lookupJ ekvs kv.1 with
  | some ev =>
      if truthy ev then
        match kv.2 with
        | .obj _ | .arr _ =>
            let nested := trackFieldSources fuel kv.2 ev
              ((lookupJ skvs kv.1).getD (.obj [])) cur
            (acc.1 ++ nested.1, acc.2 ++ nested.2)
        | _ => (acc.1 ++ [cur], acc.2)
      else (acc.1, acc.2 ++ [cur])
  | none => (acc.1, acc.2 ++ [cur])

/-- The `current_path` of `_track_field_sources`:
`f"{path}.{key}" if path else key`. -/
def joinPath (path k : String) : String :=
  if path = "" then k else path ++ "." ++ k

/-- The pair of path lists one key contributes in `_track_field_sources`:
either the single path (document- or sample-side) or the recursion's
output.  `trackStep` appends exactly this to its accumulator
(`trackStep_eq_contrib`). -/
def trackContrib (fuel : Nat) (ekvs skvs : List (String × JVal)) (path : String)
    (kv : String × JVal) : List String × List String :=
  let cur := joinPath path kv.1
  match lookupJ ekvs kv.1 with
  | some ev =>
      if truthy ev then
        match kv.2 with
        | .obj _ | .arr _ =>
            trackFieldSources fuel kv.2 ev ((lookupJ skvs kv.1).getD (.obj [])) cur
        | _ => ([cur], [])
      else ([], [cur])
  | none => ([], [cur])

/-- Well-shaped payload keys: at every dict node of the tree the keys are
distinct, nonempty, and contain no `'.'` — exactly what makes the
dot-joined paths of distinct fields distinct strings.  (`fuel` bounds the
depth as elsewhere.)  Real payloads in this domain satisfy this: their
field names are identifiers. -/
def goodKeys : Nat → JVal → Bool
  | 0, _ => false
  | fuel + 1, .obj kvs =>
      decide ((kvs.map Prod.fst).Nodup) &&
      kvs.all (fun kv => kv.1 != "" && kv.1.data.all (fun c => c != '.')) &&
      kvs.all (fun kv => goodKeys fuel kv.2)
  | _ + 1, _ => true

/-- The dot-separated paths of the leaf (non-dict) fields of a payload
tree; `fuel` bounds the nesting depth as elsewhere. -/
def leafPaths : Nat → JVal → String → List String
  | 0, _, _ => []
  | fuel + 1, .obj kvs, path =>
      (kvs.map (fun kv => leafPaths fuel kv.2
        (if path = "" then kv.1 else path ++ "." ++ kv.1))).flatten
  | _ + 1, _, path => [path]

/-- `PayloadValidator._get_all_field_names` (run in `__init__`; feeds only
the `total_fields` count). -/
def getAllFieldNames : Nat → JVal → String → Except PyErr (List String)
  | 0, _, _ => .error (.exc "RecursionError")
  | fuel + 1, schema, pre =>
      match schema with
      | .obj skvs =>
          if jdictType skvs = some "object" then
            match lookupJ skvs "properties" with
            | some (.obj props) =>
                (props.mapM (fun (pkv : String × JVal) => do
                    let cur := if pre = "" then pkv.1 else pre ++ pkv.1
                    match pkv.2 with
                    | .obj pskvs =>
                        if jdictType pskvs = some "object" then do
                          let nested ← getAllFieldNames fuel pkv.2 (cur ++ ".")
                          pure (cur :: nested)
                        else pure [cur]
                    | _ => pure [cur])).map List.flatten
            | some _ => .error (.exc "AttributeError")
            | none => .ok []
          else .ok []
      | _ => .error (.exc "AttributeError")

/-- `PayloadValidator._sanity_checks` (the textual rendering of numbers in
warning strings is abbreviated; `today` stands for `datetime.now()`, and a
parsed date strictly later than today's date compares above it). -/
def sanityChecks (pkvs : List (String × JVal)) (today : ℕ × ℕ × ℕ) : List String :=
  let amountW : List String :=
    match lookupJ pkvs "amount" with
    | some .null | none => []
    | some v =>
        match pyFloatOfJVal v with
        | none => []
        | some a =>
            if a ≤ 0 then ["Amount " ++ toString a ++ " is <= 0"]
            else if 10000000 < a then
              ["Amount " ++ toString a ++ " is unusually large (> 10M)"]
            else []
  let dateW : List String :=
    match lookupJ pkvs "date" with
    | some v =>
        if truthy v then
          match v with
          | .str s =>
              match parseDate s with
              | some d =>
                  if today.1 < d.1 ∨ (today.1 = d.1 ∧ (today.2.1 < d.2.1 ∨
                      (today.2.1 = d.2.1 ∧ today.2.2 < d.2.2))) then
                    ["Date " ++ s ++ " is in the future"]
                  else []
              | none => []
          | _ => []
        else []
    | none => []
  amountW ++ dateW

/-- Result record of `PayloadValidator.validate`. -/
structure ValidationResult where
  valid : Bool
  errors : List String
  warnings : List String
  fields_from_doc : List String
  fields_from_sample : List String
  total_fields : Nat

/-- `PayloadValidator.validate` (with the `__init__` field enumeration of
the schema folded in, since it feeds the `total_fields` count).  The
`payload`, `extracted_fields` and `sample_payload` arguments are dicts, as
the source annotates them. -/
def PayloadValidator.validate (fuel : Nat) (schema : JVal)
    (payload extracted sample : List (String × JVal)) (today : ℕ × ℕ × ℕ) :
    Except PyErr ValidationResult :=
  match getAllFieldNames fuel schema "" with
  | .error e => .error e
  | .ok allFields =>
      match validateStructure fuel (.obj payload) schema "" with
      | .error e => .error e
      | .ok errors =>
          let tracked := trackFieldSources fuel (.obj payload) (.obj extracted)
            (.obj sample) ""
          let warnings := sanityChecks payload today
          .ok { valid := errors.isEmpty
                errors := errors
                warnings := warnings
                fields_from_doc := tracked.1
                fields_from_sample := tracked.2
                total_fields := allFields.length }

/-- A concrete page text with substantial content (more than 50
characters), used by the concrete-input theorems. -/
def sampleLongPage : PyStr := List.replicate 60 'a'

/-! ## Lemmas about boundary sanitization and page grouping -/

theorem mem_sortedDedup {xs : List ℕ} {a : ℕ} : a ∈ sortedDedup xs ↔ a ∈ xs := by
  unfold sortedDedup
  rw [(List.perm_insertionSort (· ≤ ·) xs.dedup).mem_iff, List.mem_dedup]

theorem sorted_sortedDedup (xs : List ℕ) : (sortedDedup xs).Sorted (· ≤ ·) :=
  List.sorted_insertionSort (· ≤ ·) xs.dedup

theorem sanitizeBoundaries_sorted (n : ℕ) (raw : JVal) :
    (sanitizeBoundaries n raw).Sorted (· ≤ ·) := by
  unfold sanitizeBoundaries
  exact sorted_sortedDedup _

theorem sanitizeBoundaries_mem_zero (n : ℕ) (raw : JVal) :
    0 ∈ sanitizeBoundaries n raw := by
  unfold sanitizeBoundaries
  rw [mem_sortedDedup]
  split
  · assumption
  · exact List.mem_cons_self _ _

theorem mem_convertedFiltered_lt {n : ℕ} {xs : List JVal} {c : ℕ}
    (hc : c ∈ ((xs.filterMap convertBoundary).filter
        (fun b => 0 ≤ b && b < (n : Int))).map Int.toNat) : c < n := by
  simp only [List.mem_map, List.mem_filter, Bool.and_eq_true,
    decide_eq_true_eq] at hc
  obtain ⟨z, ⟨_, _, hz2⟩, rfl⟩ := hc
  omega

theorem sanitizeBoundaries_lt (n : ℕ) (raw : JVal) (hn : 1 ≤ n) :
    ∀ b ∈ sanitizeBoundaries n raw, b < n := by
  intro b hb
  cases raw with
  | arr xs =>
      simp only [sanitizeBoundaries, mem_sortedDedup] at hb
      split at hb
      · exact mem_convertedFiltered_lt hb
      · rcases List.mem_cons.mp hb with rfl | hb
        · omega
        · exact mem_convertedFiltered_lt hb
  | null => simp [sanitizeBoundaries, mem_sortedDedup] at hb; omega
  | bool b' => simp [sanitizeBoundaries, mem_sortedDedup] at hb; omega
  | int n' => simp [sanitizeBoundaries, mem_sortedDedup] at hb; omega
  | float q => simp [sanitizeBoundaries, mem_sortedDedup] at hb; omega
  | str s => simp [sanitizeBoundaries, mem_sortedDedup] at hb; omega
  | obj kvs => simp [sanitizeBoundaries, mem_sortedDedup] at hb; omega

theorem head?_eq_zero_of_sorted {l : List ℕ} (hs : l.Sorted (· ≤ ·)) (h0 : 0 ∈ l) :
    l.head? = some 0 := by
  cases l with
  | nil => simp at h0
  | cons a t =>
      have ha : ∀ b ∈ t, a ≤ b := (List.sorted_cons.mp hs).1
      rcases List.mem_cons.mp h0 with rfl | hmem
      · rfl
      · have : a ≤ 0 := ha 0 hmem
        simp [Nat.le_zero.mp this]

/-- Facts about the boundary list of every analysis result: sorted, starts
at index 0, and (for nonempty inputs) all indices in range. -/
theorem analyze_boundaries_facts (n : ℕ) (oracle : Except PyErr JVal) :
    (analyzeDocumentStructure n oracle).boundaries.Sorted (· ≤ ·) ∧
    (analyzeDocumentStructure n oracle).boundaries.head? = some 0 ∧
    (1 ≤ n → ∀ b ∈ (analyzeDocumentStructure n oracle).boundaries, b < n) := by
  match oracle with
  | .error e =>
      refine ⟨by simp [analyzeDocumentStructure], by simp [analyzeDocumentStructure], ?_⟩
      intro hn b hb
      simp [analyzeDocumentStructure] at hb
      omega
  | .ok r =>
      match r with
      | .obj kvs =>
          refine ⟨sanitizeBoundaries_sorted _ _,
            head?_eq_zero_of_sorted (sanitizeBoundaries_sorted _ _)
              (sanitizeBoundaries_mem_zero _ _), ?_⟩
          intro hn
          exact sanitizeBoundaries_lt n _ hn
      | .null | .bool _ | .int _ | .float _ | .str _ | .arr _ =>
          refine ⟨by simp [analyzeDocumentStructure], by simp [analyzeDocumentStructure], ?_⟩
          intro hn b hb
          simp [analyzeDocumentStructure] at hb
          omega

theorem docSpans_flatten (n : ℕ) :
    ∀ (bs : List ℕ) (b : ℕ), (b :: bs).Sorted (· ≤ ·) → (∀ x ∈ b :: bs, x ≤ n) →
      ((docSpans n (b :: bs)).map (fun se => List.range' se.1 (se.2 - se.1))).flatten
        = List.range' b (n - b) := by
  intro bs
  induction bs with
  | nil =>
      intro b _ _
      simp [docSpans]
  | cons c rest ih =>
      intro b hsort hle
      have hbc : b ≤ c := (List.sorted_cons.mp hsort).1 c (List.mem_cons_self _ _)
      have hcn : c ≤ n := hle c (List.mem_cons.mpr (.inr (List.mem_cons_self _ _)))
      have htail : ((docSpans n (c :: rest)).map
          (fun se => List.range' se.1 (se.2 - se.1))).flatten = List.range' c (n - c) :=
        ih c (List.sorted_cons.mp hsort).2 (fun x hx => hle x (List.mem_cons_of_mem _ hx))
      simp only [docSpans, List.map_cons, List.flatten_cons, htail]
      have happ := List.range'_append_1 b (c - b) (n - c)
      rw [show b + (c - b) = c by omega] at happ
      rw [show n - c + (c - b) = n - b by omega] at happ
      exact happ

theorem groupPages_pages (n : ℕ) (bs : List ℕ) (src : String) :
    (groupPagesIntoDocuments n bs src).map LogicalDoc.pages
      = (docSpans n bs).map (fun se => List.range' se.1 (se.2 - se.1)) := by
  unfold groupPagesIntoDocuments
  rw [List.map_map]
  have : (LogicalDoc.pages ∘ fun p : ℕ × (ℕ × ℕ) =>
      { source := src
        pages := List.range' p.2.1 (p.2.2 - p.2.1)
        page_range := pageRangeStr p.2.1 p.2.2
        document_id := src ++ "_doc_" ++ pad3 (p.1 + 1)
        split_method := "llm_intelligent"
        num_pages := p.2.2 - p.2.1 : LogicalDoc })
      = (fun se : ℕ × ℕ => List.range' se.1 (se.2 - se.1)) ∘ Prod.snd := rfl
  rw [this, ← List.map_map, List.enum, List.enumFrom_map_snd]

theorem createSingle_pages (n : ℕ) (src : String) :
    (createSingleDocument n src).map LogicalDoc.pages = [List.range n] := rfl

theorem createSingle_facts (m : ℕ) (src : String) :
    ((createSingleDocument m src).map LogicalDoc.pages).flatten = List.range m ∧
    (∀ d ∈ createSingleDocument m src, ∃ s k, d.pages = List.range' s k) := by
  constructor
  · simp [createSingleDocument]
  · intro d hd
    simp only [createSingleDocument, List.mem_singleton] at hd
    subst hd
    exact ⟨0, m, by simp [createSingleDocument, List.range_eq_range']⟩

theorem extractAllPageTexts_length (ocr : List PyStr) :
    (extractAllPageTexts ocr).length = ocr.length := by
  simp [extractAllPageTexts]

theorem splitPdfPages_flatten_contig (ocr : List PyStr) (oracle : Except PyErr JVal)
    (src : String) :
    ((splitPdfPages ocr oracle src).map LogicalDoc.pages).flatten = List.range ocr.length ∧
    (∀ d ∈ splitPdfPages ocr oracle src, ∃ s k, d.pages = List.range' s k) := by
  by_cases h1 : ocr.length = 1
  · simpa [splitPdfPages, h1] using createSingle_facts ocr.length src
  by_cases h2 : ((extractAllPageTexts ocr).filter (·.has_content)).length = 0
  · simpa [splitPdfPages, h1, h2] using createSingle_facts ocr.length src
  by_cases h3 : ((extractAllPageTexts ocr).filter (·.has_content)).length = 1
  · simpa [splitPdfPages, h1, h2, h3] using createSingle_facts ocr.length src
  by_cases h4 : (analyzeDocumentStructure ocr.length oracle).is_single_document = true
  · simpa [splitPdfPages, h1, h2, h3, h4] using createSingle_facts ocr.length src
  -- multi-document branch
  have hn1 : 1 ≤ ocr.length := by
    have hf : ((extractAllPageTexts ocr).filter (·.has_content)).length
        ≤ (extractAllPageTexts ocr).length := List.length_filter_le _ _
    rw [extractAllPageTexts_length] at hf
    omega
  rw [Bool.not_eq_true] at h4
  have hsplit : splitPdfPages ocr oracle src
      = groupPagesIntoDocuments ocr.length
          (analyzeDocumentStructure ocr.length oracle).boundaries src := by
    simp [splitPdfPages, h1, h2, h3, h4]
  obtain ⟨hsort, hhead, hlt⟩ := analyze_boundaries_facts ocr.length oracle
  rw [hsplit]
  constructor
  · rw [groupPages_pages]
    cases hbs : (analyzeDocumentStructure ocr.length oracle).boundaries with
    | nil => rw [hbs] at hhead; simp at hhead
    | cons b0 rest =>
        rw [hbs] at hhead hsort
        have hb0 : b0 = 0 := by simpa using hhead
        subst hb0
        rw [docSpans_flatten ocr.length rest 0 hsort]
        · simp [List.range_eq_range']
        · intro x hx
          exact Nat.le_of_lt (hlt hn1 x (hbs ▸ hx))
  · intro d hd
    simp only [groupPagesIntoDocuments, List.mem_map] at hd
    obtain ⟨p, _, rfl⟩ := hd
    exact ⟨p.2.1, p.2.2 - p.2.1, rfl⟩

/-- **C1.** For every list of input pages (any OCR text per page), every raw
oracle boundary value (out-of-range, unsorted, duplicated, non-integer and
non-list values included) and every oracle outcome (failure included), the
page-index lists of the LogicalDocuments returned by `split_pdf_pages`
partition `{0..N-1}`: concatenated in order they are exactly
`[0, 1, ..., N-1]` (so their union is `{0..N-1}` and they are pairwise
disjoint), each one is a contiguous range, and for a nonempty input the
first document starts at page index 0. -/
theorem C1_split_partition_invariant (ocr : List PyStr) (oracle : Except PyErr JVal)
    (src : String) :
    ((splitPdfPages ocr oracle src).map LogicalDoc.pages).flatten = List.range ocr.length ∧
    ((splitPdfPages ocr oracle src).map LogicalDoc.pages).Pairwise List.Disjoint ∧
    (∀ d ∈ splitPdfPages ocr oracle src, ∃ s k, d.pages = List.range' s k) ∧
    (ocr ≠ [] →
      (((splitPdfPages ocr oracle src).map LogicalDoc.pages).flatten).head? = some 0) := by
  obtain ⟨hflat, hcontig⟩ := splitPdfPages_flatten_contig ocr oracle src
  refine ⟨hflat, ?_, hcontig, ?_⟩
  · have hnodup : (((splitPdfPages ocr oracle src).map LogicalDoc.pages).flatten).Nodup := by
      rw [hflat]; exact List.nodup_range ocr.length
    exact (List.nodup_flatten.mp hnodup).2
  · intro hne
    rw [hflat]
    cases hlen : ocr.length with
    | zero => exact absurd (List.length_eq_zero.mp hlen) hne
    | succ m => simp [List.range_eq_range', List.range'_succ]

/-- Witness for C1 at a concrete input (two pages, failing oracle). -/
theorem C1_split_partition_invariant_witness :
    ((splitPdfPages [['a'], ['b']] (.error (.timeout "t")) "f.pdf").map
        LogicalDoc.pages).flatten = List.range 2 ∧
    (((splitPdfPages [['a'], ['b']] (.error (.timeout "t")) "f.pdf").map
        LogicalDoc.pages).flatten).head? = some 0 := by
  have h := C1_split_partition_invariant [['a'], ['b']] (.error (.timeout "t")) "f.pdf"
  exact ⟨h.1, h.2.2.2 (by simp)⟩

/-- **C3.** The LLM-correction gate fires iff the text length is at least
the minimum threshold (100), the confidence is strictly below the
configured threshold (0.85), and the alphanumeric-or-whitespace character
count is at least half the total length (the exact form of the ratio test
`alphanumeric / len >= 0.5`).  In particular, confidence exactly equal to
the threshold never triggers validation, and a ratio of exactly 0.5 does. -/
theorem C3_confidence_gate (text : PyStr) (confidence : ℚ) :
    (shouldValidateWithLLM text confidence = true ↔
      (minTextLength ≤ text.length ∧ confidence < confidenceThreshold ∧
        text.length ≤ 2 * text.countP isReadableChar)) ∧
    shouldValidateWithLLM text confidenceThreshold = false ∧
    (minTextLength ≤ text.length → confidence < confidenceThreshold →
      2 * text.countP isReadableChar = text.length →
      shouldValidateWithLLM text confidence = true) := by
  refine ⟨?_, ?_, ?_⟩
  · unfold shouldValidateWithLLM
    split_ifs with h1 h2 h3
    · simp only [Bool.false_eq_true, false_iff]
      rintro ⟨hl, -, -⟩
      omega
    · simp only [Bool.false_eq_true, false_iff]
      rintro ⟨-, hc, -⟩
      exact absurd hc (not_lt.mpr h2)
    · simp only [Bool.false_eq_true, false_iff]
      rintro ⟨-, -, hr⟩
      omega
    · simp only [true_iff]
      exact ⟨by omega, not_le.mp h2, by omega⟩
  · unfold shouldValidateWithLLM
    split_ifs with h1 h2 h3 <;> first | rfl | exact absurd le_rfl h2
  · intro hl hc hr
    unfold shouldValidateWithLLM
    rw [if_neg (by omega), if_neg (not_le.mpr hc), if_neg (by omega)]

/-- Witness for C3: a 100-character text with exactly half readable
characters and mid confidence triggers the gate. -/
theorem C3_confidence_gate_witness :
    shouldValidateWithLLM (List.replicate 50 'a' ++ List.replicate 50 '#') (1/2) = true :=
  (C3_confidence_gate (List.replicate 50 'a' ++ List.replicate 50 '#') (1/2)).2.2
    (by decide) (by norm_num [confidenceThreshold]) (by decide)

/-- **C8.** When the correction pass runs, an oracle result whose length is
below half or above twice the length of the sampled input is discarded in
favour of the original raw text, and an oracle error also returns the raw
text unchanged. -/
theorem C8_correction_sanity_bounds (oracle : PyStr → Except PyErr PyStr)
    (raw : PyStr) (conf : ℚ) :
    (∀ e, oracle (correctionPrompt conf (textSample raw)) = .error e →
        validateWithLLM oracle raw conf = raw) ∧
    (∀ c, oracle (correctionPrompt conf (textSample raw)) = .ok c →
        2 * c.length < (textSample raw).length →
        validateWithLLM oracle raw conf = raw) ∧
    (∀ c, oracle (correctionPrompt conf (textSample raw)) = .ok c →
        2 * (textSample raw).length < c.length →
        validateWithLLM oracle raw conf = raw) := by
  refine ⟨?_, ?_, ?_⟩
  · intro e h
    simp only [validateWithLLM, h]
  · intro c h hlow
    simp only [validateWithLLM, h]
    rw [if_pos hlow]
  · intro c h hhigh
    simp only [validateWithLLM, h]
    rw [if_neg (by omega), if_pos hhigh]

/-- Witness for C8: a 12-character input whose "correction" collapses to 2
characters is rejected and the raw text returned. -/
theorem C8_correction_sanity_bounds_witness :
    validateWithLLM (fun _ => .ok ['h', 'i']) (List.replicate 12 'a') (1/2)
      = List.replicate 12 'a' :=
  (C8_correction_sanity_bounds (fun _ => .ok ['h', 'i'])
      (List.replicate 12 'a') (1/2)).2.1 ['h', 'i'] rfl (by decide)

/-- **C10.** For raw OCR text longer than 2000 characters, when the
validation pass runs (gate fires and the text survives the minimum-content
check) and the oracle's correction of the 2000-character sample is
accepted, the returned `validated_text` is the stripped correction of the
first 2000 characters alone — the oracle is applied to `raw.take 2000`,
so no character of the raw text beyond position 2000 reaches the result —
whereas a rejected or failed correction returns the full raw text. -/
theorem C10_truncated_correction (raw : PyStr) (conf : ℚ)
    (oracle : PyStr → Except PyErr PyStr)
    (hlen : 2000 < raw.length) (hgate : shouldValidateWithLLM raw conf = true)
    (hmin : 10 ≤ (pyStrip raw).length) :
    (∀ c, oracle (correctionPrompt conf (raw.take 2000)) = .ok c →
        2000 ≤ 2 * c.length → c.length ≤ 4000 →
        (extractAndValidate raw conf oracle).validated_text = pyStrip c) ∧
    (∀ e, oracle (correctionPrompt conf (raw.take 2000)) = .error e →
        (extractAndValidate raw conf oracle).validated_text = raw) ∧
    (∀ c, oracle (correctionPrompt conf (raw.take 2000)) = .ok c →
        (2 * c.length < 2000 ∨ 4000 < c.length) →
        (extractAndValidate raw conf oracle).validated_text = raw) := by
  have hsample_eq : textSample raw = raw.take 2000 := by
    unfold textSample
    rw [if_pos hlen]
  have hslen : (raw.take 2000).length = 2000 := by
    rw [List.length_take]
    omega
  have hc1 : (raw.isEmpty || decide ((pyStrip raw).length < 10)) = false := by
    simp only [Bool.or_eq_false_iff, decide_eq_false_iff_not, not_lt]
    refine ⟨?_, hmin⟩
    cases raw with
    | nil => simp at hlen
    | cons a t => rfl
  have hbranch : (extractAndValidate raw conf oracle).validated_text
      = validateWithLLM oracle raw conf := by
    simp [extractAndValidate, hc1, hgate, enableLLMValidation]
  refine ⟨?_, ?_, ?_⟩
  · intro c hc hlo hhi
    rw [hbranch]
    simp only [validateWithLLM, hsample_eq, hc, hslen]
    rw [if_neg (by omega), if_neg (by omega)]
  · intro e he
    rw [hbranch]
    simp only [validateWithLLM, hsample_eq, he]
  · intro c hc hbad
    rw [hbranch]
    simp only [validateWithLLM, hsample_eq, hc, hslen]
    rcases hbad with hb | hb
    · rw [if_pos (by omega)]
    · rw [if_neg (by omega), if_pos (by omega)]

theorem pyStrip_replicate_a (n : ℕ) :
    pyStrip (List.replicate n 'a') = List.replicate n 'a' := by
  simp [pyStrip, List.dropWhile_replicate]

/-- Witness for C10: a 2001-character raw text whose accepted correction is
2000 characters of 'b'. -/
theorem C10_truncated_correction_witness :
    (extractAndValidate (List.replicate 2001 'a') (1/2)
        (fun _ => .ok (List.replicate 2000 'b'))).validated_text
      = pyStrip (List.replicate 2000 'b') :=
  (C10_truncated_correction (List.replicate 2001 'a') (1/2)
      (fun _ => .ok (List.replicate 2000 'b'))
      (by rw [List.length_replicate]; norm_num)
      (by
        unfold shouldValidateWithLLM
        rw [List.length_replicate, List.countP_replicate]
        rw [if_pos (show isReadableChar 'a' = true by decide)]
        norm_num [minTextLength, confidenceThreshold])
      (by rw [pyStrip_replicate_a, List.length_replicate]; norm_num)).1
    (List.replicate 2000 'b') rfl
    (by rw [List.length_replicate]; norm_num)
    (by rw [List.length_replicate]; norm_num)

/-- **C5 (code bug).** `generate` hard-codes `timeout = 300` (line 51;
line 50 comments out the intended `timeout = timeout or
self.default_timeout`), so the network request is never issued with the
caller's purpose-specific timeout (120 for text correction, 240 for
structural analysis); a timed-out request does surface as a
`TimeoutError`, but its message also reports the hard-coded 300. -/
theorem C5_generate_hardcodes_timeout :
    (∀ (c : LlamaClient) (p : String) (s : Option String) (t : Nat),
        (c.buildRequest p s (some t)).timeout = 300) ∧
    (∀ (c : LlamaClient) (p : String) (s : Option String),
        c.generate p s (some 120) (fun _ => .timedOut)
          = .error (.timeout "LLM request timed out after 300 seconds")) := by
  refine ⟨fun _ _ _ _ => rfl, fun c p s => ?_⟩
  simp only [LlamaClient.generate, LlamaClient.buildRequest]
  rfl

theorem dictInsert_not_mem (d : List (String × JVal)) (k : String) (v : JVal)
    (h : k ∉ d.map Prod.fst) : dictInsert d k v = d ++ [(k, v)] := by
  induction d with
  | nil => rfl
  | cons kv rest ih =>
      simp only [List.map_cons, List.mem_cons, not_or] at h
      simp only [dictInsert, List.cons_append, ih h.2]
      rw [if_neg (fun he => h.1 he.symm)]

theorem fold_dictInsert_eq_map (g : FieldSpec → JVal) :
    ∀ (fields : List FieldSpec) (acc : List (String × JVal)),
      (acc.map Prod.fst ++ fields.map FieldSpec.name).Nodup →
      fields.foldl (fun a f => dictInsert a f.name (g f)) acc
        = acc ++ fields.map (fun f => (f.name, g f)) := by
  intro fields
  induction fields with
  | nil => intro acc _; simp
  | cons f rest ih =>
      intro acc h
      have hnotin : f.name ∉ acc.map Prod.fst := by
        have := (List.nodup_append.mp h).2.2
        intro hmem
        exact this hmem (by simp)
      have hstep : dictInsert acc f.name (g f) = acc ++ [(f.name, g f)] :=
        dictInsert_not_mem acc f.name (g f) hnotin
      have hnd' : ((acc ++ [(f.name, g f)]).map Prod.fst
          ++ rest.map FieldSpec.name).Nodup := by
        simpa [List.append_assoc] using h
      calc (f :: rest).foldl (fun a fs => dictInsert a fs.name (g fs)) acc
          = rest.foldl (fun a fs => dictInsert a fs.name (g fs))
              (acc ++ [(f.name, g f)]) := by simp [hstep]
        _ = (acc ++ [(f.name, g f)]) ++ rest.map (fun fs => (fs.name, g fs)) :=
            ih _ hnd'
        _ = acc ++ (f :: rest).map (fun fs => (fs.name, g fs)) := by
            simp [List.append_assoc]

theorem validateExtraction_eq_map (fields : List FieldSpec)
    (result : List (String × JVal)) (h : (fields.map FieldSpec.name).Nodup) :
    validateExtraction fields result
      = fields.map (fun f => (f.name, validateField f result)) := by
  simpa [validateExtraction] using
    fold_dictInsert_eq_map (fun f => validateField f result) fields [] (by simpa using h)

theorem getEmptyResult_eq_map (fields : List FieldSpec)
    (h : (fields.map FieldSpec.name).Nodup) :
    getEmptyResult fields = fields.map (fun f => (f.name, JVal.null)) := by
  simpa [getEmptyResult] using
    fold_dictInsert_eq_map (fun _ => JVal.null) fields [] (by simpa using h)

theorem lookupJ_map_name (g : FieldSpec → JVal) :
    ∀ (fields : List FieldSpec), (fields.map FieldSpec.name).Nodup →
      ∀ f ∈ fields, lookupJ (fields.map (fun fs => (fs.name, g fs))) f.name
        = some (g f) := by
  intro fields
  induction fields with
  | nil => intro _ f hf; simp at hf
  | cons f0 rest ih =>
      intro h f hf
      rcases List.mem_cons.mp hf with rfl | hmem
      · simp [lookupJ]
      · have hne : f0.name ≠ f.name := by
          intro he
          have : f.name ∈ rest.map FieldSpec.name := List.mem_map_of_mem _ hmem
          rw [← he] at this
          exact (List.nodup_cons.mp h).1 this
        simp only [List.map_cons, lookupJ, if_neg hne]
        exact ih (List.nodup_cons.mp h).2 f hmem

theorem validateField_missing (f : FieldSpec) (kvs : List (String × JVal))
    (h : lookupJ kvs f.name = none) : validateField f kvs = .null := by
  simp [validateField, h]

/-- **C6.** `DynamicExtractor.extract` returns a dict whose key list is
exactly the declared field-name list (assuming the registry declares
distinct names), an oracle or parse error yields the all-null result over
the same fields, and a field absent from the oracle's output is mapped to
null.  The embedding is a total function: every failure branch of the
source lands in the `except` that produces the empty result, so extraction
never raises past its boundary. -/
theorem C6_extract_field_set (fields : List FieldSpec) (oracle : Except PyErr JVal)
    (hnd : (fields.map FieldSpec.name).Nodup) :
    ((DynamicExtractor.extract fields oracle).map Prod.fst
        = fields.map FieldSpec.name) ∧
    (∀ e, oracle = .error e →
        DynamicExtractor.extract fields oracle
          = fields.map (fun f => (f.name, JVal.null))) ∧
    (∀ kvs, oracle = .ok (.obj kvs) → ∀ f ∈ fields, lookupJ kvs f.name = none →
        lookupJ (DynamicExtractor.extract fields oracle) f.name = some .null) := by
  refine ⟨?_, ?_, ?_⟩
  · match oracle with
    | .error e =>
        simp [DynamicExtractor.extract, getEmptyResult_eq_map fields hnd,
          List.map_map, Function.comp]
    | .ok (.obj kvs) =>
        simp [DynamicExtractor.extract, validateExtraction_eq_map fields kvs hnd,
          List.map_map, Function.comp]
    | .ok .null | .ok (.bool _) | .ok (.int _) | .ok (.float _) | .ok (.str _)
    | .ok (.arr _) =>
        simp [DynamicExtractor.extract, getEmptyResult_eq_map fields hnd,
          List.map_map, Function.comp]
  · intro e he
    rw [he]
    simp [DynamicExtractor.extract, getEmptyResult_eq_map fields hnd]
  · intro kvs hk f hf hmiss
    rw [hk]
    simp only [DynamicExtractor.extract, validateExtraction_eq_map fields kvs hnd]
    rw [lookupJ_map_name (fun fs => validateField fs kvs) fields hnd f hf,
      validateField_missing f kvs hmiss]

/-- Witness for C6: two declared fields, failing oracle, all-null result. -/
theorem C6_extract_field_set_witness :
    DynamicExtractor.extract
        [{ name := "amount", ftype := "currency", required := true },
         { name := "issue_date", ftype := "date", required := false }]
        (.error (.timeout "t"))
      = [("amount", JVal.null), ("issue_date", JVal.null)] :=
  (C6_extract_field_set
      [{ name := "amount", ftype := "currency", required := true },
       { name := "issue_date", ftype := "date", required := false }]
      (.error (.timeout "t")) (by decide)).2.1 (.timeout "t") rfl

theorem dictInsert_self (kvs : List (String × JVal)) (k : String) (v : JVal)
    (h : lookupJ kvs k = some v) : dictInsert kvs k v = kvs := by
  induction kvs with
  | nil => simp [lookupJ] at h
  | cons kv rest ih =>
      simp only [lookupJ] at h
      by_cases hk : kv.1 = k
      · rw [if_pos hk] at h
        cases h
        simp only [dictInsert, if_pos hk]
      · rw [if_neg hk] at h
        simp only [dictInsert, if_neg hk, ih h]

theorem mapM_ok_id {α : Type} (F : α → Except PyErr α) :
    ∀ l : List α, (∀ a ∈ l, F a = .ok a) → l.mapM F = .ok l := by
  intro l
  induction l with
  | nil => intro _; rfl
  | cons a rest ih =>
      intro h
      rw [List.mapM_cons, h a (by simp), ih (fun x hx => h x (by simp [hx]))]
      rfl

/-- **C9.** Resolving a schema tree that contains no reference nodes (and
whose visited `properties` tables are genuine dicts, as in every real
schema) is the identity, for any definitions table.  `unreffed fuel s`
states reference-freeness of the walked tree together with the depth bound
`fuel` on the recursion stack. -/
theorem C9_resolve_noref_identity (fuel : Nat) (schema : JVal)
    (h : unreffed fuel schema = true) :
    (∀ defs, resolveRefs fuel schema defs = .ok schema) ∧
    SchemaResolver.resolve fuel schema = .ok schema := by
  have main : ∀ (fuel : Nat) (schema : JVal), unreffed fuel schema = true →
      ∀ defs, resolveRefs fuel schema defs = .ok schema := by
    intro fuel
    induction fuel with
    | zero => intro s h; simp [unreffed] at h
    | succ fuel ih =>
        intro s h defs
        match s with
        | .null | .bool _ | .int _ | .float _ | .str _ | .arr _ => rfl
        | .obj kvs =>
            simp only [unreffed, Bool.and_eq_true] at h
            obtain ⟨href, hbody⟩ := h
            have hrefn : lookupJ kvs "$ref" = none :=
              Option.isNone_iff_eq_none.mp href
            simp only [resolveRefs, hrefn]
            by_cases hobj : jdictType kvs = some "object"
            · rw [if_pos hobj] at hbody ⊢
              cases hprops : lookupJ kvs "properties" with
              | none => rfl
              | some pv =>
                  rw [hprops] at hbody
                  cases pv with
                  | obj props =>
                      have hall : props.all (fun kv => unreffed fuel kv.2) = true :=
                        hbody
                      have hmapM : props.mapM (fun kv =>
                          (resolveRefs fuel kv.2 defs).map
                            (fun r => (kv.1, r))) = .ok props := by
                        apply mapM_ok_id
                        intro kv hkv
                        rw [ih kv.2 (List.all_eq_true.mp hall kv hkv) defs]
                        rfl
                      simp only [hmapM]
                      rw [dictInsert_self kvs "properties" (.obj props) hprops]
                  | null => simp at hbody
                  | bool b => simp at hbody
                  | int n => simp at hbody
                  | float q => simp at hbody
                  | str st => simp at hbody
                  | arr xs => simp at hbody
            · rw [if_neg hobj] at hbody ⊢
              by_cases harr : jdictType kvs = some "array"
              · rw [if_pos harr] at hbody ⊢
                cases hitems : lookupJ kvs "items" with
                | none => rfl
                | some it =>
                    rw [hitems] at hbody
                    have hit : unreffed fuel it = true := hbody
                    simp only [ih it hit defs]
                    rw [dictInsert_self kvs "items" it hitems]
              · rw [if_neg harr] at hbody ⊢
  refine ⟨main fuel schema h, ?_⟩
  unfold SchemaResolver.resolve
  exact main fuel schema h _

/-- Witness for C9: a concrete reference-free object schema resolves to
itself. -/
theorem C9_resolve_noref_identity_witness :
    SchemaResolver.resolve 5
        (.obj [("type", .str "object"),
               ("properties", .obj [("a", .obj [("type", .str "string")])])])
      = .ok (.obj [("type", .str "object"),
               ("properties", .obj [("a", .obj [("type", .str "string")])])]) :=
  (C9_resolve_noref_identity 5
      (.obj [("type", .str "object"),
             ("properties", .obj [("a", .obj [("type", .str "string")])])])
      (by decide)).2

theorem exceptMap_ok {α β : Type} {x : Except PyErr α} {f : α → β} {y : β}
    (h : x.map f = .ok y) : ∃ a, x = .ok a ∧ y = f a := by
  cases x with
  | error e => simp [Except.map] at h
  | ok a =>
      refine ⟨a, rfl, ?_⟩
      simpa [Except.map] using h.symm

theorem mapM_ok_mem {α β : Type} (F : α → Except PyErr β) :
    ∀ (l : List α) (out : List β), l.mapM F = .ok out →
      ∀ a ∈ l, ∃ r, F a = .ok r ∧ r ∈ out := by
  intro l
  induction l with
  | nil => intro out _ a ha; simp at ha
  | cons a0 rest ih =>
      intro out h a ha
      rw [List.mapM_cons] at h
      cases hF : F a0 with
      | error e =>
          rw [hF] at h
          exact Except.noConfusion h
      | ok b =>
          rw [hF] at h
          cases hR : rest.mapM F with
          | error e =>
              rw [hR] at h
              exact Except.noConfusion h
          | ok bs =>
              rw [hR] at h
              have h' : Except.ok (ε := PyErr) (b :: bs) = Except.ok out := h
              have hout : out = b :: bs := by
                cases h'
                rfl
              rcases List.mem_cons.mp ha with rfl | hmem
              · exact ⟨b, hF, by simp [hout]⟩
              · obtain ⟨r, hr1, hr2⟩ := ih bs hR a hmem
                exact ⟨r, hr1, by simp [hout, hr2]⟩

/-- **C2.** Recursive payload validation: the result is valid exactly when
the error list is empty; at an object node a missing declared property
contributes a `Missing field` error and a null or empty-string value an
`Empty field` error at its path; an array value must be a non-empty list
(the empty list yields exactly the `array is empty` error); a date-format
string field must parse as a calendar date; and the concrete example —
schema `{a: string, b: {c: number}}`, payload
`{"a": "x", "b": {"c": "notanumber"}}` — produces exactly one error, at
path `b.c`. -/
theorem C2_recursive_payload_validation :
    (∀ (fuel : Nat) (schema : JVal) (payload extracted sample : List (String × JVal))
        (today : ℕ × ℕ × ℕ) (res : ValidationResult),
        PayloadValidator.validate fuel schema payload extracted sample today = .ok res →
        (res.valid = true ↔ res.errors = [])) ∧
    (∀ (fuel : Nat) (skvs props dkvs : List (String × JVal)) (path : String)
        (errs : List String),
        jdictType skvs = some "object" →
        lookupJ skvs "properties" = some (.obj props) →
        validateStructure (fuel + 1) (.obj dkvs) (.obj skvs) path = .ok errs →
        ∀ pkv ∈ props,
          (lookupJ dkvs pkv.1 = none →
            ("Missing field: "
              ++ (if path = "" then pkv.1 else path ++ "." ++ pkv.1)) ∈ errs) ∧
          (lookupJ dkvs pkv.1 = some .null ∨ lookupJ dkvs pkv.1 = some (.str "") →
            ("Empty field: "
              ++ (if path = "" then pkv.1 else path ++ "." ++ pkv.1)) ∈ errs)) ∧
    (∀ (fuel : Nat) (skvs : List (String × JVal)) (path : String),
        jdictType skvs = some "array" →
        validateStructure (fuel + 1) (.arr []) (.obj skvs) path
          = .ok [path ++ " array is empty"]) ∧
    (∀ (skvs : List (String × JVal)) (s : String),
        jdictType skvs = some "string" →
        lookupJ skvs "format" = some (.str "date") →
        validateSimpleType (.str s) skvs = validDateFormat s) ∧
    PayloadValidator.validate 10
        (.obj [("type", .str "object"),
               ("properties", .obj [
                 ("a", .obj [("type", .str "string")]),
                 ("b", .obj [("type", .str "object"),
                             ("properties",
                              .obj [("c", .obj [("type", .str "number")])])])])])
        [("a", .str "x"), ("b", .obj [("c", .str "notanumber")])] [] []
        (2026, 1, 1)
      = .ok { valid := false, errors := ["b.c: expected number, got str"],
              warnings := [], fields_from_doc := [],
              fields_from_sample := ["a", "b"], total_fields := 3 } := by
  refine ⟨?_, ?_, ?_, ?_, ?_⟩
  · intro fuel schema payload extracted sample today res h
    cases hA : getAllFieldNames fuel schema "" with
    | error e => simp [PayloadValidator.validate, hA] at h
    | ok allFields =>
        cases hE : validateStructure fuel (.obj payload) schema "" with
        | error e => simp [PayloadValidator.validate, hA, hE] at h
        | ok errs =>
            simp only [PayloadValidator.validate, hA, hE, Except.ok.injEq] at h
            subst h
            simp [List.isEmpty_iff]
  · intro fuel skvs props dkvs path errs hobj hprops hrun pkv hpkv
    simp only [validateStructure, hobj, hprops] at hrun
    obtain ⟨out, hout, herrs⟩ := exceptMap_ok hrun
    constructor
    · intro hmiss
      obtain ⟨r, hr, hrout⟩ := mapM_ok_mem _ props out hout pkv hpkv
      rw [hmiss] at hr
      have : r = ["Missing field: "
          ++ (if path = "" then pkv.1 else path ++ "." ++ pkv.1)] := by
        simp only [Except.ok.injEq] at hr
        exact hr.symm
      subst this herrs
      exact List.mem_flatten.mpr ⟨_, hrout, by simp⟩
    · intro hempty
      obtain ⟨r, hr, hrout⟩ := mapM_ok_mem _ props out hout pkv hpkv
      have : r = ["Empty field: "
          ++ (if path = "" then pkv.1 else path ++ "." ++ pkv.1)] := by
        rcases hempty with he | he <;> rw [he] at hr <;>
          · simp only [Except.ok.injEq] at hr
            exact hr.symm
      subst this herrs
      exact List.mem_flatten.mpr ⟨_, hrout, by simp⟩
  · intro fuel skvs path harr
    simp [validateStructure, harr]
  · intro skvs s hstr hfmt
    simp [validateSimpleType, hstr, hfmt]
  · rfl

/-- Witness for C2 at a concrete run: a payload missing one declared
property and carrying an empty string in another gets exactly the
`Missing field` and `Empty field` errors, and the result is invalid. -/
theorem C2_recursive_payload_validation_witness :
    ("Missing field: y" ∈ ["Empty field: x", "Missing field: y"] ∧
     "Empty field: x" ∈ ["Empty field: x", "Missing field: y"]) ∧
    (false = true ↔ (["Empty field: x", "Missing field: y"] : List String) = []) := by
  constructor
  · have h2 := (C2_recursive_payload_validation).2.1 0
      [("type", .str "object"),
       ("properties", .obj [("x", .obj [("type", .str "string")]),
                            ("y", .obj [("type", .str "string")])])]
      [("x", .obj [("type", .str "string")]), ("y", .obj [("type", .str "string")])]
      [("x", .str "")] "" ["Empty field: x", "Missing field: y"]
      rfl rfl (by rfl)
    exact ⟨(h2 ("y", .obj [("type", .str "string")]) (by simp)).1 rfl,
      (h2 ("x", .obj [("type", .str "string")]) (by simp)).2 (.inr rfl)⟩
  · have h1 := (C2_recursive_payload_validation).1 1
      (.obj [("type", .str "object"),
             ("properties", .obj [("x", .obj [("type", .str "string")]),
                                  ("y", .obj [("type", .str "string")])])])
      [("x", .str "")] [] [] (2026, 1, 1)
      { valid := false, errors := ["Empty field: x", "Missing field: y"],
        warnings := [], fields_from_doc := [], fields_from_sample := ["x"],
        total_fields := 2 }
      (by rfl)
    exact h1

/-- **C4 (code bug).** For a 2-page input with substantial content on both
pages, an oracle answer `{is_single_document: false, boundaries: [0, 1]}`
— exactly the prompt-documented encoding of two single-page documents —
is collapsed by the boundary sanitizer (`int(b) - 1` for every nonzero
`b`) to `[0]`, which forces `is_single_document = true`: the splitter
returns ONE two-page document with page_range "1-2" instead of the two
single-page documents "1" and "2" the claim states. -/
theorem C4_boundaries_zero_one_collapse :
    splitPdfPages [sampleLongPage, sampleLongPage]
        (.ok (.obj [("is_single_document", .bool false),
                    ("boundaries", .arr [.int 0, .int 1])])) "f.pdf"
      = [{ source := "f.pdf", pages := [0, 1], page_range := "1-2",
           document_id := "f.pdf_doc_001", split_method := "no_split",
           num_pages := 2 }] := by rfl

theorem trackFieldSources_succ (fuel : Nat) (pkvs ekvs skvs : List (String × JVal))
    (path : String) :
    trackFieldSources (fuel + 1) (.obj pkvs) (.obj ekvs) (.obj skvs) path
      = pkvs.foldl (trackStep fuel ekvs skvs path) ([], []) := rfl

theorem trackStep_eq_contrib (fuel : Nat) (ekvs skvs : List (String × JVal))
    (path : String) (acc : List String × List String) (kv : String × JVal) :
    trackStep fuel ekvs skvs path acc kv
      = (acc.1 ++ (trackContrib fuel ekvs skvs path kv).1,
         acc.2 ++ (trackContrib fuel ekvs skvs path kv).2) := by
  cases hl : lookupJ ekvs kv.1 with
  | none => simp [trackStep, trackContrib, hl, joinPath]
  | some ev =>
      by_cases ht : truthy ev = true
      · cases kv2 : kv.2 with
        | obj o => simp [trackStep, trackContrib, hl, ht, kv2, joinPath]
        | arr a => simp [trackStep, trackContrib, hl, ht, kv2, joinPath]
        | null => simp [trackStep, trackContrib, hl, ht, kv2, joinPath]
        | bool b => simp [trackStep, trackContrib, hl, ht, kv2, joinPath]
        | int n => simp [trackStep, trackContrib, hl, ht, kv2, joinPath]
        | float q => simp [trackStep, trackContrib, hl, ht, kv2, joinPath]
        | str st => simp [trackStep, trackContrib, hl, ht, kv2, joinPath]
      · simp [trackStep, trackContrib, hl, ht, joinPath]

theorem track_foldl_contrib (fuel : Nat) (ekvs skvs : List (String × JVal))
    (path : String) :
    ∀ (pkvs : List (String × JVal)) (acc : List String × List String),
      pkvs.foldl (trackStep fuel ekvs skvs path) acc
        = (acc.1 ++ (pkvs.map
              (fun kv => (trackContrib fuel ekvs skvs path kv).1)).flatten,
           acc.2 ++ (pkvs.map
              (fun kv => (trackContrib fuel ekvs skvs path kv).2)).flatten) := by
  intro pkvs
  induction pkvs with
  | nil => intro acc; simp
  | cons kv rest ih =>
      intro acc
      rw [List.foldl_cons, trackStep_eq_contrib, ih]
      simp [List.append_assoc]

theorem track_succ_contrib (fuel : Nat) (pkvs ekvs skvs : List (String × JVal))
    (path : String) :
    trackFieldSources (fuel + 1) (.obj pkvs) (.obj ekvs) (.obj skvs) path
      = ((pkvs.map (fun kv => (trackContrib fuel ekvs skvs path kv).1)).flatten,
         (pkvs.map (fun kv => (trackContrib fuel ekvs skvs path kv).2)).flatten) := by
  rw [trackFieldSources_succ, track_foldl_contrib]
  simp

theorem track_cases (fuel : Nat) (p e s : JVal) (path : String) :
    trackFieldSources fuel p e s path = ([], []) ∨
    (∃ fuel' pkvs ekvs skvs, fuel = fuel' + 1 ∧ p = .obj pkvs ∧ e = .obj ekvs
      ∧ s = .obj skvs) := by
  match fuel, p, e, s with
  | 0, _, _, _ => left; rfl
  | fuel + 1, .obj pk, .obj ek, .obj sk =>
      right
      exact ⟨fuel, pk, ek, sk, rfl, rfl, rfl, rfl⟩
  | fuel + 1, .obj pk, .obj ek, .null | fuel + 1, .obj pk, .obj ek, .bool _
  | fuel + 1, .obj pk, .obj ek, .int _ | fuel + 1, .obj pk, .obj ek, .float _
  | fuel + 1, .obj pk, .obj ek, .str _ | fuel + 1, .obj pk, .obj ek, .arr _ =>
      left; rfl
  | fuel + 1, .obj pk, .null, _ | fuel + 1, .obj pk, .bool _, _
  | fuel + 1, .obj pk, .int _, _ | fuel + 1, .obj pk, .float _, _
  | fuel + 1, .obj pk, .str _, _ | fuel + 1, .obj pk, .arr _, _ =>
      left; rfl
  | fuel + 1, .null, _, _ | fuel + 1, .bool _, _, _ | fuel + 1, .int _, _, _
  | fuel + 1, .float _, _, _ | fuel + 1, .str _, _, _ | fuel + 1, .arr _, _, _ =>
      left; rfl

theorem nodup_key_unique :
    ∀ {l : List (String × JVal)}, (l.map Prod.fst).Nodup →
      ∀ {k : String} {v v' : JVal}, (k, v) ∈ l → (k, v') ∈ l → v = v' := by
  intro l
  induction l with
  | nil => intro _ k v v' h1; simp at h1
  | cons kv rest ih =>
      intro hnd k v v' h1 h2
      simp only [List.map_cons, List.nodup_cons] at hnd
      rcases List.mem_cons.mp h1 with he1 | h1t
      · cases he1.symm
        rcases List.mem_cons.mp h2 with he2 | h2t
        · exact (congrArg Prod.snd he2).symm
        · exact absurd (List.mem_map_of_mem Prod.fst h2t) hnd.1
      · rcases List.mem_cons.mp h2 with he2 | h2t
        · cases he2.symm
          exact absurd (List.mem_map_of_mem Prod.fst h1t) hnd.1
        · exact ih hnd.2 h1t h2t

theorem takeWhile_dotfree_append :
    ∀ (l td : List Char), l.all (fun c => c != '.') = true →
      (td = [] ∨ ∃ u, td = '.' :: u) →
      (l ++ td).takeWhile (fun c => c != '.') = l := by
  intro l
  induction l with
  | nil =>
      intro td _ htd
      rcases htd with rfl | ⟨u, rfl⟩
      · rfl
      · simp [List.takeWhile_cons]
  | cons c l' ih =>
      intro td hall htd
      simp only [List.all_cons, Bool.and_eq_true] at hall
      rw [List.cons_append, List.takeWhile_cons, hall.1]
      simp [ih td hall.2 htd]

theorem dotted_suffix_data {t : String} (ht : t = "" ∨ ∃ u, t = "." ++ u) :
    t.data = [] ∨ ∃ u, t.data = '.' :: u := by
  rcases ht with rfl | ⟨u, rfl⟩
  · left; rfl
  · right
    refine ⟨u.data, ?_⟩
    rw [String.data_append]
    rfl

theorem keySep {P k k' t t' : String}
    (hk : k.data.all (fun c => c != '.') = true)
    (hk' : k'.data.all (fun c => c != '.') = true)
    (hne : k ≠ k')
    (ht : t = "" ∨ ∃ u, t = "." ++ u)
    (ht' : t' = "" ∨ ∃ u, t' = "." ++ u) :
    joinPath P k ++ t ≠ joinPath P k' ++ t' := by
  intro he
  have hdata : k.data ++ t.data = k'.data ++ t'.data := by
    by_cases hP : P = ""
    · have h0 := congrArg String.data he
      simpa only [joinPath, if_pos hP, String.data_append] using h0
    · have h0 := congrArg String.data he
      simp only [joinPath, if_neg hP, String.data_append, List.append_assoc] at h0
      exact List.append_cancel_left (List.append_cancel_left h0)
  have e1 : (k.data ++ t.data).takeWhile (fun c => c != '.') = k.data :=
    takeWhile_dotfree_append k.data t.data hk (dotted_suffix_data ht)
  have e2 : (k'.data ++ t'.data).takeWhile (fun c => c != '.') = k'.data :=
    takeWhile_dotfree_append k'.data t'.data hk' (dotted_suffix_data ht')
  rw [hdata, e2] at e1
  exact hne (String.ext e1.symm)

theorem joinPath_ne_empty (path k : String) (h : path ≠ "" ∨ k ≠ "") :
    joinPath path k ≠ "" := by
  unfold joinPath
  split
  · rcases h with hp | hk
    · exact absurd (by assumption) hp
    · exact hk
  · intro he
    have hlen := congrArg String.length he
    rw [String.length_append, String.length_append] at hlen
    have hdot : ".".length = 1 := rfl
    rw [hdot] at hlen
    simp at hlen

theorem trackContrib_cases (fuel : Nat) (ekvs skvs : List (String × JVal))
    (path : String) (kv : String × JVal) :
    trackContrib fuel ekvs skvs path kv = ([joinPath path kv.1], []) ∨
    trackContrib fuel ekvs skvs path kv = ([], [joinPath path kv.1]) ∨
    (∃ ev, lookupJ ekvs kv.1 = some ev ∧ truthy ev = true ∧
      trackContrib fuel ekvs skvs path kv
        = trackFieldSources fuel kv.2 ev ((lookupJ skvs kv.1).getD (.obj []))
            (joinPath path kv.1)) := by
  cases hl : lookupJ ekvs kv.1 with
  | none => right; left; simp [trackContrib, hl]
  | some ev =>
      by_cases ht : truthy ev = true
      · cases kv2 : kv.2 with
        | obj o =>
            right; right
            exact ⟨ev, rfl, ht, by simp [trackContrib, hl, ht, kv2]⟩
        | arr a =>
            right; right
            exact ⟨ev, rfl, ht, by simp [trackContrib, hl, ht, kv2]⟩
        | null => left; simp [trackContrib, hl, ht, kv2]
        | bool b => left; simp [trackContrib, hl, ht, kv2]
        | int n => left; simp [trackContrib, hl, ht, kv2]
        | float q => left; simp [trackContrib, hl, ht, kv2]
        | str st => left; simp [trackContrib, hl, ht, kv2]
      · right; left; simp [trackContrib, hl, ht]

theorem track_shape :
    ∀ (fuel : Nat) (payload e s : JVal) (path : String), path ≠ "" →
      ∀ x, (x ∈ (trackFieldSources fuel payload e s path).1 ∨
            x ∈ (trackFieldSources fuel payload e s path).2) →
        ∃ r, x = path ++ "." ++ r := by
  intro fuel
  induction fuel with
  | zero =>
      intro payload e s path _ x hx
      rcases hx with hx | hx <;> simp [trackFieldSources] at hx
  | succ fuel ih =>
      intro payload e s path hpath x hx
      rcases track_cases (fuel + 1) payload e s path with hnil |
        ⟨fuel', pkvs, ekvs, skvs, hfe, rfl, rfl, rfl⟩
      · rw [hnil] at hx
        rcases hx with hx | hx <;> simp at hx
      · obtain rfl : fuel = fuel' := by omega
        rw [track_succ_contrib] at hx
        have hkv : ∃ kv ∈ pkvs,
            x ∈ (trackContrib fuel ekvs skvs path kv).1 ∨
            x ∈ (trackContrib fuel ekvs skvs path kv).2 := by
          rcases hx with hx | hx
          · obtain ⟨l, hl, hxl⟩ := List.mem_flatten.mp hx
            obtain ⟨kv, hkvm, rfl⟩ := List.mem_map.mp hl
            exact ⟨kv, hkvm, .inl hxl⟩
          · obtain ⟨l, hl, hxl⟩ := List.mem_flatten.mp hx
            obtain ⟨kv, hkvm, rfl⟩ := List.mem_map.mp hl
            exact ⟨kv, hkvm, .inr hxl⟩
        obtain ⟨kv, hkvm, hxin⟩ := hkv
        have hjp : joinPath path kv.1 = path ++ "." ++ kv.1 := by
          simp [joinPath, hpath]
        rcases trackContrib_cases fuel ekvs skvs path kv with hc | hc |
          ⟨ev, hl, ht, hc⟩
        · rw [hc] at hxin
          rcases hxin with hxin | hxin
          · rw [List.mem_singleton] at hxin
            exact ⟨kv.1, by rw [hxin, hjp]⟩
          · simp at hxin
        · rw [hc] at hxin
          rcases hxin with hxin | hxin
          · simp at hxin
          · rw [List.mem_singleton] at hxin
            exact ⟨kv.1, by rw [hxin, hjp]⟩
        · rw [hc] at hxin
          have hcur : joinPath path kv.1 ≠ "" :=
            joinPath_ne_empty path kv.1 (.inl hpath)
          obtain ⟨r, hr⟩ := ih kv.2 ev ((lookupJ skvs kv.1).getD (.obj []))
            (joinPath path kv.1) hcur x hxin
          refine ⟨kv.1 ++ "." ++ r, ?_⟩
          rw [hr, hjp]
          simp [String.append_assoc]

theorem trackContrib_shape (fuel : Nat) (ekvs skvs : List (String × JVal))
    (path : String) (kv : String × JVal) (hne : path ≠ "" ∨ kv.1 ≠ "") :
    ∀ x, (x ∈ (trackContrib fuel ekvs skvs path kv).1 ∨
          x ∈ (trackContrib fuel ekvs skvs path kv).2) →
      ∃ t, x = joinPath path kv.1 ++ t ∧ (t = "" ∨ ∃ u, t = "." ++ u) := by
  rcases trackContrib_cases fuel ekvs skvs path kv with hc | hc | ⟨ev, hl, ht, hc⟩
  · rw [hc]
    intro x hx
    have hx' : x = joinPath path kv.1 := by
      rcases hx with hx | hx
      · exact List.mem_singleton.mp hx
      · simp at hx
    exact ⟨"", by rw [hx', String.append_empty], .inl rfl⟩
  · rw [hc]
    intro x hx
    have hx' : x = joinPath path kv.1 := by
      rcases hx with hx | hx
      · simp at hx
      · exact List.mem_singleton.mp hx
    exact ⟨"", by rw [hx', String.append_empty], .inl rfl⟩
  · rw [hc]
    intro x hx
    have hcur : joinPath path kv.1 ≠ "" := joinPath_ne_empty path kv.1 hne
    obtain ⟨r, hr⟩ := track_shape fuel kv.2 ev ((lookupJ skvs kv.1).getD (.obj []))
      (joinPath path kv.1) hcur x hx
    exact ⟨"." ++ r, by rw [hr, String.append_assoc], .inr ⟨r, rfl⟩⟩

theorem track_disjoint :
    ∀ (fuel : Nat) (payload e s : JVal) (path : String),
      goodKeys fuel payload = true →
      ∀ x, x ∈ (trackFieldSources fuel payload e s path).1 →
        x ∉ (trackFieldSources fuel payload e s path).2 := by
  intro fuel
  induction fuel with
  | zero =>
      intro payload e s path hg
      simp [goodKeys] at hg
  | succ fuel ih =>
      intro payload e s path hg x hx1 hx2
      rcases track_cases (fuel + 1) payload e s path with hnil |
        ⟨fuel', pkvs, ekvs, skvs, hfe, rfl, rfl, rfl⟩
      · rw [hnil] at hx1
        simp at hx1
      · obtain rfl : fuel = fuel' := by omega
        rw [track_succ_contrib] at hx1 hx2
        obtain ⟨l1, hl1, hx1c⟩ := List.mem_flatten.mp hx1
        obtain ⟨kv, hkvm, rfl⟩ := List.mem_map.mp hl1
        obtain ⟨l2, hl2, hx2c⟩ := List.mem_flatten.mp hx2
        obtain ⟨kv', hkvm', rfl⟩ := List.mem_map.mp hl2
        simp only [goodKeys, Bool.and_eq_true, decide_eq_true_eq,
          List.all_eq_true] at hg
        obtain ⟨⟨hnd, hkeys⟩, hchild⟩ := hg
        by_cases hk : kv.1 = kv'.1
        · obtain ⟨k1, v1⟩ := kv
          obtain ⟨k1', v1'⟩ := kv'
          simp only at hk
          subst hk
          have hv : v1 = v1' := nodup_key_unique hnd hkvm hkvm'
          subst hv
          rcases trackContrib_cases fuel ekvs skvs path (k1, v1) with hc | hc |
            ⟨ev, hl, ht, hc⟩
          · rw [hc] at hx2c
            simp at hx2c
          · rw [hc] at hx1c
            simp at hx1c
          · rw [hc] at hx1c hx2c
            exact ih v1 ev ((lookupJ skvs k1).getD (.obj []))
              (joinPath path k1) (hchild (k1, v1) hkvm) x hx1c hx2c
        · have hkey1 : kv.1 ≠ "" := by
            have := hkeys kv hkvm
            simp only [Bool.and_eq_true, bne_iff_ne, ne_eq] at this
            exact this.1
          have hkey1' : kv'.1 ≠ "" := by
            have := hkeys kv' hkvm'
            simp only [Bool.and_eq_true, bne_iff_ne, ne_eq] at this
            exact this.1
          have hdf : kv.1.data.all (fun c => c != '.') = true := by
            have h1 := hkeys kv hkvm
            simp only [Bool.and_eq_true] at h1
            exact List.all_eq_true.mpr h1.2
          have hdf' : kv'.1.data.all (fun c => c != '.') = true := by
            have h1 := hkeys kv' hkvm'
            simp only [Bool.and_eq_true] at h1
            exact List.all_eq_true.mpr h1.2
          obtain ⟨t, hxt, hts⟩ :=
            trackContrib_shape fuel ekvs skvs path kv (.inr hkey1) x (.inl hx1c)
          obtain ⟨t', hxt', hts'⟩ :=
            trackContrib_shape fuel ekvs skvs path kv' (.inr hkey1') x (.inr hx2c)
          exact keySep hdf hdf' hk hts hts' (hxt ▸ hxt')

theorem trackContrib_scalar_fst (fuel : Nat) (ekvs skvs : List (String × JVal))
    (path : String) (kv : String × JVal) (hsc : isScalarJ kv.2 = true)
    {x : String} (hx : x ∈ (trackContrib fuel ekvs skvs path kv).1) :
    x = joinPath path kv.1 ∧
    ∃ ev, lookupJ ekvs kv.1 = some ev ∧ truthy ev = true := by
  cases hl : lookupJ ekvs kv.1 with
  | none =>
      rw [show trackContrib fuel ekvs skvs path kv = ([], [joinPath path kv.1])
        from by simp [trackContrib, hl]] at hx
      simp at hx
  | some ev =>
      by_cases ht : truthy ev = true
      · have hc : trackContrib fuel ekvs skvs path kv
            = ([joinPath path kv.1], []) := by
          cases kv2 : kv.2 with
          | obj o => rw [kv2] at hsc; simp [isScalarJ] at hsc
          | arr a => rw [kv2] at hsc; simp [isScalarJ] at hsc
          | null => simp [trackContrib, hl, ht, kv2]
          | bool b => simp [trackContrib, hl, ht, kv2]
          | int n => simp [trackContrib, hl, ht, kv2]
          | float q => simp [trackContrib, hl, ht, kv2]
          | str st => simp [trackContrib, hl, ht, kv2]
        rw [hc] at hx
        exact ⟨List.mem_singleton.mp hx, ev, rfl, ht⟩
      · rw [show trackContrib fuel ekvs skvs path kv = ([], [joinPath path kv.1])
          from by simp [trackContrib, hl, ht]] at hx
        simp at hx

theorem trackContrib_scalar_snd (fuel : Nat) (ekvs skvs : List (String × JVal))
    (path : String) (kv : String × JVal) (hsc : isScalarJ kv.2 = true)
    {x : String} (hx : x ∈ (trackContrib fuel ekvs skvs path kv).2) :
    x = joinPath path kv.1 ∧
    (lookupJ ekvs kv.1 = none ∨
      ∃ ev, lookupJ ekvs kv.1 = some ev ∧ truthy ev = false) := by
  cases hl : lookupJ ekvs kv.1 with
  | none =>
      rw [show trackContrib fuel ekvs skvs path kv = ([], [joinPath path kv.1])
        from by simp [trackContrib, hl]] at hx
      exact ⟨List.mem_singleton.mp hx, .inl rfl⟩
  | some ev =>
      by_cases ht : truthy ev = true
      · have hc : trackContrib fuel ekvs skvs path kv
            = ([joinPath path kv.1], []) := by
          cases kv2 : kv.2 with
          | obj o => rw [kv2] at hsc; simp [isScalarJ] at hsc
          | arr a => rw [kv2] at hsc; simp [isScalarJ] at hsc
          | null => simp [trackContrib, hl, ht, kv2]
          | bool b => simp [trackContrib, hl, ht, kv2]
          | int n => simp [trackContrib, hl, ht, kv2]
          | float q => simp [trackContrib, hl, ht, kv2]
          | str st => simp [trackContrib, hl, ht, kv2]
        rw [hc] at hx
        simp at hx
      · rw [show trackContrib fuel ekvs skvs path kv = ([], [joinPath path kv.1])
          from by simp [trackContrib, hl, ht]] at hx
        refine ⟨List.mem_singleton.mp hx, .inr ⟨ev, rfl, ?_⟩⟩
        exact Bool.not_eq_true (truthy ev) ▸ (eq_false_of_ne_true ht)

/-- **C7 is false as stated** : when the walk recurses into a nested
payload value whose extracted counterpart is truthy but not a parallel
dict, nothing is attributed.  Payload `{"a": {"b": 1}}` has the single
leaf `a.b`, extracted is `{"a": "x"}` ("a" present and truthy), yet both
provenance lists come back empty: the leaf belongs to neither source. -/
theorem C7_provenance_counterexample :
    leafPaths 10 (.obj [("a", .obj [("b", .int 1)])]) "" = ["a.b"] ∧
    trackFieldSources 10 (.obj [("a", .obj [("b", .int 1)])])
        (.obj [("a", .str "x")]) (.obj []) "" = ([], []) :=
  ⟨rfl, rfl⟩

/-- **C7 (amended).** Provenance tracking never attributes a field to both
sources: for every payload whose dict nodes have distinct, nonempty,
dot-free keys (`goodKeys` — what makes distinct fields carry distinct
paths), the document list and the sample list are disjoint, at every level
and for every extracted/sample tree.  For a flat payload dict (every value
a scalar) each field is attributed to exactly the claimed source: to the
document list iff its key is present with a truthy value in the extracted
map, and to the sample list iff it is absent or falsy there.  Leaves below
a recursion whose payload/extracted/sample triple is not simultaneously
dict-shaped are attributed to neither source (see the counterexample). -/
theorem C7_provenance_attribution :
    (∀ (fuel : Nat) (payload extracted sample : JVal) (path : String),
        goodKeys fuel payload = true →
        ∀ x, x ∈ (trackFieldSources fuel payload extracted sample path).1 →
          x ∉ (trackFieldSources fuel payload extracted sample path).2) ∧
    (∀ (fuel : Nat) (pkvs ekvs skvs : List (String × JVal)),
        (∀ kv ∈ pkvs, isScalarJ kv.2 = true) →
        ∀ (k : String) (v : JVal), (k, v) ∈ pkvs →
          (∀ ev, lookupJ ekvs k = some ev → truthy ev = true →
            k ∈ (trackFieldSources (fuel + 1) (.obj pkvs) (.obj ekvs)
                  (.obj skvs) "").1 ∧
            k ∉ (trackFieldSources (fuel + 1) (.obj pkvs) (.obj ekvs)
                  (.obj skvs) "").2) ∧
          (∀ ev, lookupJ ekvs k = some ev → truthy ev = false →
            k ∉ (trackFieldSources (fuel + 1) (.obj pkvs) (.obj ekvs)
                  (.obj skvs) "").1 ∧
            k ∈ (trackFieldSources (fuel + 1) (.obj pkvs) (.obj ekvs)
                  (.obj skvs) "").2) ∧
          (lookupJ ekvs k = none →
            k ∉ (trackFieldSources (fuel + 1) (.obj pkvs) (.obj ekvs)
                  (.obj skvs) "").1 ∧
            k ∈ (trackFieldSources (fuel + 1) (.obj pkvs) (.obj ekvs)
                  (.obj skvs) "").2)) := by
  constructor
  · exact track_disjoint
  · intro fuel pkvs ekvs skvs hflat k v hkv
    refine ⟨?_, ?_, ?_⟩
    · intro ev hlk ht
      constructor
      · rw [track_succ_contrib]
        apply List.mem_flatten.mpr
        refine ⟨(trackContrib fuel ekvs skvs "" (k, v)).1,
          List.mem_map_of_mem _ hkv, ?_⟩
        have hc : trackContrib fuel ekvs skvs "" (k, v) = ([k], []) := by
          have hsc := hflat (k, v) hkv
          cases v with
          | obj o => simp [isScalarJ] at hsc
          | arr a => simp [isScalarJ] at hsc
          | null => simp [trackContrib, hlk, ht, joinPath]
          | bool b => simp [trackContrib, hlk, ht, joinPath]
          | int n => simp [trackContrib, hlk, ht, joinPath]
          | float q => simp [trackContrib, hlk, ht, joinPath]
          | str st => simp [trackContrib, hlk, ht, joinPath]
        rw [hc]
        simp
      · intro hkS
        rw [track_succ_contrib] at hkS
        obtain ⟨l, hl, hx⟩ := List.mem_flatten.mp hkS
        obtain ⟨kv', hkv'm, rfl⟩ := List.mem_map.mp hl
        obtain ⟨hxeq, hbad⟩ :=
          trackContrib_scalar_snd fuel ekvs skvs "" kv' (hflat kv' hkv'm) hx
        have hk' : kv'.1 = k := by
          rw [hxeq]
          simp [joinPath]
        rcases hbad with hnone | ⟨ev', hle, hte⟩
        · rw [hk', hlk] at hnone
          cases hnone
        · rw [hk', hlk] at hle
          injection hle with hee
          rw [← hee] at hte
          rw [ht] at hte
          cases hte
    · intro ev hlk htf
      constructor
      · intro hkD
        rw [track_succ_contrib] at hkD
        obtain ⟨l, hl, hx⟩ := List.mem_flatten.mp hkD
        obtain ⟨kv', hkv'm, rfl⟩ := List.mem_map.mp hl
        obtain ⟨hxeq, ev', hle, hte⟩ :=
          trackContrib_scalar_fst fuel ekvs skvs "" kv' (hflat kv' hkv'm) hx
        have hk' : kv'.1 = k := by
          rw [hxeq]
          simp [joinPath]
        rw [hk', hlk] at hle
        injection hle with hee
        rw [← hee] at hte
        rw [htf] at hte
        cases hte
      · rw [track_succ_contrib]
        apply List.mem_flatten.mpr
        refine ⟨(trackContrib fuel ekvs skvs "" (k, v)).2,
          List.mem_map_of_mem _ hkv, ?_⟩
        have hc : trackContrib fuel ekvs skvs "" (k, v) = ([], [k]) := by
          simp [trackContrib, hlk, htf, joinPath]
        rw [hc]
        simp
    · intro hlk
      constructor
      · intro hkD
        rw [track_succ_contrib] at hkD
        obtain ⟨l, hl, hx⟩ := List.mem_flatten.mp hkD
        obtain ⟨kv', hkv'm, rfl⟩ := List.mem_map.mp hl
        obtain ⟨hxeq, ev', hle, hte⟩ :=
          trackContrib_scalar_fst fuel ekvs skvs "" kv' (hflat kv' hkv'm) hx
        have hk' : kv'.1 = k := by
          rw [hxeq]
          simp [joinPath]
        rw [hk', hlk] at hle
        cases hle
      · rw [track_succ_contrib]
        apply List.mem_flatten.mpr
        refine ⟨(trackContrib fuel ekvs skvs "" (k, v)).2,
          List.mem_map_of_mem _ hkv, ?_⟩
        have hc : trackContrib fuel ekvs skvs "" (k, v) = ([], [k]) := by
          simp [trackContrib, hlk, joinPath]
        rw [hc]
        simp

/-- Witness for the amended C7: on a concrete flat payload, the field with
a truthy extracted counterpart lands in the document list only and the
absent one in the sample list only; on a concrete nested payload the
`goodKeys` disjointness excludes the document-sourced path `a.c` from the
sample list. -/
theorem C7_provenance_attribution_witness :
    ("a" ∈ (trackFieldSources 3 (.obj [("a", .str "v"), ("b", .null)])
        (.obj [("a", .str "x")]) (.obj []) "").1 ∧
     "a" ∉ (trackFieldSources 3 (.obj [("a", .str "v"), ("b", .null)])
        (.obj [("a", .str "x")]) (.obj []) "").2) ∧
    ("b" ∉ (trackFieldSources 3 (.obj [("a", .str "v"), ("b", .null)])
        (.obj [("a", .str "x")]) (.obj []) "").1 ∧
     "b" ∈ (trackFieldSources 3 (.obj [("a", .str "v"), ("b", .null)])
        (.obj [("a", .str "x")]) (.obj []) "").2) ∧
    "a.c" ∉ (trackFieldSources 3 (.obj [("a", .obj [("c", .int 1)])])
        (.obj [("a", .obj [("c", .int 2)])])
        (.obj [("a", .obj [("c", .int 3)])]) "").2 := by
  refine ⟨?_, ?_, ?_⟩
  · exact (C7_provenance_attribution.2 2 [("a", .str "v"), ("b", .null)]
      [("a", .str "x")] [] (by decide) "a" (.str "v")
      (List.mem_cons_self _ _)).1 (.str "x") rfl (by decide)
  · exact (C7_provenance_attribution.2 2 [("a", .str "v"), ("b", .null)]
      [("a", .str "x")] [] (by decide) "b" .null
      (List.mem_cons_of_mem _ (List.mem_cons_self _ _))).2.2 rfl
  · exact C7_provenance_attribution.1 3 (.obj [("a", .obj [("c", .int 1)])])
      (.obj [("a", .obj [("c", .int 2)])])
      (.obj [("a", .obj [("c", .int 3)])]) "" (by decide) "a.c" (by decide)

end LCProc
